import Mathlib

/-!
# Recursive ray tracer core: `Scene::castRay`, `Scene::trace`, `Scene::render`

A shallow embedding of `src/scene.cpp` and `src/light.h`.

Conventions of the embedding

* `double` values are exact rationals (`ℚ`); a hit distance is a rational or
  `+infinity` (`WithTop ℚ`).  NaN, rounding and overflow to infinity are outside
  the model.
* `int` values are integers (`ℤ`); the product `cells_x * cells_y`, stored in
  the `int` variable `num_cells`, is the 32-bit two's complement value of the
  product (`wrapInt32`), what the compiled code holds when the product does not
  fit in an `int`.
* `unsigned` values are natural numbers below `2 ^ 32`.  In `trace` the
  recursion depth is a natural number and the recursion is on it; the version
  of the body with explicit recursive calls (`traceBodyM`) and `render` compute
  `depth - 1`, `h - 1 - y` and `supersamplingFactor * supersamplingFactor`
  modulo `2 ^ 32`, as the source does.
* `ObjectPtr` is `Option Object`, `nullptr` being `none`.
* The hidden state of `rand ()` is made explicit: the state is the number of
  draws made so far, and `Prims.rand01 k` is the value of
  `static_cast<float> (rand ()) / static_cast<float> (RAND_MAX)` at draw `k`.
* Functions of the repository whose definition is not in the two source files
  and that cannot be written over `ℚ` (`normalized`, `std::pow` with a real
  exponent) or whose formula the specification does not give (`reflect`,
  `refract`, `epsilon`) are parameters, bundled in `Prims`.
-/

namespace Raytracer

/-! ## Data model -/

/-- Modelled from the spec: `triple.h` is not among the sources.  A triple of
reals with the component-wise vector and colour algebra the tracer consumes;
`Point`, `Vector` and `Color` are all this type. -/
@[ext]
structure Triple where
  x : ℚ
  y : ℚ
  z : ℚ
deriving DecidableEq

abbrev Point := Triple
abbrev Vector := Triple
abbrev Color := Triple

namespace Triple

/-- Default-constructed triple `Vector ()`, `Color ()`. -/
def zero : Triple := ⟨0, 0, 0⟩

def add (a b : Triple) : Triple := ⟨a.x + b.x, a.y + b.y, a.z + b.z⟩

def sub (a b : Triple) : Triple := ⟨a.x - b.x, a.y - b.y, a.z - b.z⟩

def neg (a : Triple) : Triple := ⟨-a.x, -a.y, -a.z⟩

/-- Component-wise product of two triples (`Color * Color`). -/
def mul (a b : Triple) : Triple := ⟨a.x * b.x, a.y * b.y, a.z * b.z⟩

/-- Product with a scalar, written `k * c` or `c * k` in the source. -/
def smul (k : ℚ) (a : Triple) : Triple := ⟨k * a.x, k * a.y, k * a.z⟩

/-- Quotient by a scalar (`c / k`). -/
def divScalar (a : Triple) (k : ℚ) : Triple := ⟨a.x / k, a.y / k, a.z / k⟩

def dot (a b : Triple) : ℚ := a.x * b.x + a.y * b.y + a.z * b.z

/-- Squared Euclidean length. -/
def length_2 (a : Triple) : ℚ := a.x * a.x + a.y * a.y + a.z * a.z

instance : Zero Triple := ⟨zero⟩
instance : Add Triple := ⟨add⟩
instance : Sub Triple := ⟨sub⟩
instance : Neg Triple := ⟨neg⟩
instance : Mul Triple := ⟨mul⟩

instance : AddCommGroup Triple where
  nsmul := nsmulRec
  zsmul := zsmulRec
  add_assoc _ _ _ := Triple.ext (add_assoc _ _ _) (add_assoc _ _ _) (add_assoc _ _ _)
  zero_add _ := Triple.ext (zero_add _) (zero_add _) (zero_add _)
  add_zero _ := Triple.ext (add_zero _) (add_zero _) (add_zero _)
  add_comm _ _ := Triple.ext (add_comm _ _) (add_comm _ _) (add_comm _ _)
  sub_eq_add_neg _ _ := Triple.ext (sub_eq_add_neg _ _) (sub_eq_add_neg _ _) (sub_eq_add_neg _ _)
  neg_add_cancel _ := Triple.ext (neg_add_cancel _) (neg_add_cancel _) (neg_add_cancel _)

instance : Module ℚ Triple where
  smul := smul
  one_smul _ := Triple.ext (one_mul _) (one_mul _) (one_mul _)
  mul_smul _ _ _ := Triple.ext (mul_assoc _ _ _) (mul_assoc _ _ _) (mul_assoc _ _ _)
  smul_zero _ := Triple.ext (mul_zero _) (mul_zero _) (mul_zero _)
  smul_add _ _ _ := Triple.ext (mul_add _ _ _) (mul_add _ _ _) (mul_add _ _ _)
  add_smul _ _ _ := Triple.ext (add_mul _ _ _) (add_mul _ _ _) (add_mul _ _ _)
  zero_smul _ := Triple.ext (zero_mul _) (zero_mul _) (zero_mul _)

instance : HDiv Triple ℚ Triple := ⟨divScalar⟩

end Triple

/-- Shadow modes of the scene (`ShadowType`). -/
inductive ShadowType where
  | HARD
  | SOFT_BANDING
  | SOFT_JITTERED
deriving DecidableEq

/-- The class `Light` of `light.h`: a rectangular area light. -/
structure Light where
  position : Point
  color : Color
  cells_x : Int
  cells_y : Int
  width : ℚ
  height : ℚ

/-- The constructor of `Light`: width and height arrive as `int`. -/
def Light.create (pos : Point) (c : Color) (c_x c_y : Int) (w h : Int) : Light :=
  { position := pos, color := c, cells_x := c_x, cells_y := c_y, width := w, height := h }

/-- Modelled from the spec: `ray.h` is not among the sources.  Origin and
direction. -/
structure Ray where
  O : Point
  D : Vector

/-- Modelled from the spec: `hit.h` is not among the sources.  Distance along
the ray (a real, or `+infinity` meaning no hit) and surface normal. -/
structure Hit where
  t : WithTop ℚ
  N : Vector

/-- Point of the ray at distance `t` (`ray.at (t)`), the ray origin plus
`t` times the direction.  The tracer only evaluates it at the distance of a
returned object, which is finite; at `+infinity` the model returns the origin. -/
def Ray.pointAt (r : Ray) (t : WithTop ℚ) : Point :=
  r.O + (WithTop.untop' 0 t) • r.D

/-- Modelled from the spec: the texture image, with its lookup `colorAt`. -/
structure Texture where
  colorAt : ℚ → ℚ → Color

/-- Modelled from the spec: `material.h` is not among the sources. -/
structure Material where
  color : Color
  ka : ℚ
  kd : ℚ
  ks : ℚ
  n : ℚ
  nt : ℚ
  isTransparent : Bool
  hasTexture : Bool
  texture : Texture

/-- Modelled from the spec: `object.h` is not among the sources.  A scene
object is its two virtual functions and its material. -/
structure Object where
  intersect : Ray → Hit
  toUV : Point → Vector
  material : Material

/-- Functions and constants the tracer calls that are defined outside the two
source files. -/
structure Prims where
  epsilon : ℚ
  normalized : Vector → Vector
  reflect : Vector → Vector → Vector
  refract : Vector → Vector → ℚ → ℚ → Vector
  pow : ℚ → ℚ → ℚ
  rand01 : Nat → ℚ

/-- The data members of `Scene`. -/
structure Scene where
  objects : List Object
  lights : List Light
  eye : Point
  renderShadows : Bool
  shadowType : ShadowType
  recursionDepth : Nat
  supersamplingFactor : Nat

/-! ## `Scene::castRay` -/

/-- One iteration of the loop of `castRay`: the running pair `(obj, min_hit)`
is replaced when the object's hit is strictly nearer. -/
def castRayStep (ray : Ray) (acc : Option Object × Hit) (o : Object) : Option Object × Hit :=
  let hit := o.intersect ray
  if hit.t < acc.2.t then (some o, hit) else acc

/-- `Scene::castRay`: linear scan from `(nullptr, Hit (infinity, Vector ()))`. -/
def Scene.castRay (sc : Scene) (ray : Ray) : Option Object × Hit :=
  sc.objects.foldl (castRayStep ray) (none, ⟨⊤, Triple.zero⟩)

/-! ## `Scene::trace` -/

/-- The shading normal: `N` when `N.dot (V) >= 0`, else `-N`. -/
def shadingNormal (N V : Vector) : Vector :=
  if N.dot V ≥ 0 then N else -N

/-- The surface colour `matColor`: the texture at `(UV.x, 1 - UV.y)` when the
material has a texture, the flat colour otherwise. -/
def matColor (obj : Object) (hit : Point) : Color :=
  if obj.material.hasTexture then
    let UV := obj.toUV hit
    obj.material.texture.colorAt UV.x (1 - UV.y)
  else
    obj.material.color

/-- The local variables of `trace` that the light loops read. -/
structure Surface where
  material : Material
  hit : Point
  V : Vector
  shadingN : Vector
  matColor : Color

/-- Number of cells per axis used for a light: one in `HARD` mode. -/
def cellsOf (sc : Scene) (n : Int) : Int :=
  if sc.shadowType = ShadowType.HARD then 1 else n

/-- The sample position `subLightPos` of cell `(x, y)` for the in-cell
offsets `(p_x, p_y)`. -/
def subLightPos (light : Light) (cells_x cells_y : Int) (x y : Nat) (p_x p_y : ℚ) : Vector :=
  let lightCorner : Point := light.position - (⟨light.width / 2, light.height / 2, 0⟩ : Triple)
  ⟨lightCorner.x + light.width * (p_x + x) / cells_x,
   lightCorner.y + light.height * (p_y + y) / cells_y,
   lightCorner.z⟩

/-- The shadow ray of a sample: from `hit + epsilon * shadingN` along `L`. -/
def shadowRay (P : Prims) (s : Surface) (L : Vector) : Ray :=
  ⟨s.hit + P.epsilon • s.shadingN, L⟩

/-- The flag `inShadow` after the shadow test of one light sample. -/
def inShadow (P : Prims) (sc : Scene) (s : Surface) (pos L : Vector) : Bool :=
  match sc.castRay (shadowRay P s L) with
  | (none, _) => false
  | (some o, h) =>
    let shadowPoint := (shadowRay P s L).pointAt h.t
    if (pos - s.hit).length_2 ≤ (shadowPoint - s.hit).length_2 then false
    else if o.material.isTransparent then false
    else true

/-- The diffuse term added for an unoccluded sample. -/
def diffuseTerm (s : Surface) (light : Light) (L : Vector) : Color :=
  ((max (s.shadingN.dot L) 0 * s.material.kd) • light.color) * s.matColor

/-- The specular term added for an unoccluded sample. -/
def specularTerm (P : Prims) (s : Surface) (light : Light) (L : Vector) : Color :=
  let reflectDir := P.reflect (-L) s.shadingN
  let specAngle := max (reflectDir.dot s.V) 0
  let specular := P.pow specAngle s.material.n
  (specular * s.material.ks) • light.color

/-- The body of the cell loop after the sample position is known: the shadow
test and the two updates of `diffSpecColor`. -/
def addSample (P : Prims) (sc : Scene) (s : Surface) (light : Light) (pos : Vector)
    (diffSpecColor : Color) : Color :=
  let L := P.normalized (pos - s.hit)
  if inShadow P sc s pos L then diffSpecColor
  else (diffSpecColor + diffuseTerm s light L) + specularTerm P s light L

/-- An in-cell offset `p_x` or `p_y`: a fresh random draw in `SOFT_JITTERED`
mode, `0.5` otherwise.  Returns the offset and the new draw count. -/
def cellOffset (P : Prims) (sc : Scene) (g : Nat) : ℚ × Nat :=
  if sc.shadowType = ShadowType.SOFT_JITTERED then (P.rand01 g, g + 1) else (1 / 2, g)

/-- The sample position of cell `(x, y)` when `g` draws have been made: the
two in-cell offsets are fixed (first `p_x`, then `p_y`) and `subLightPos` is
formed.  Returns the position and the new draw count. -/
def samplePos (P : Prims) (sc : Scene) (light : Light) (cells_x cells_y : Int) (x y : Nat)
    (g : Nat) : Vector × Nat :=
  let px := cellOffset P sc g
  let py := cellOffset P sc px.2
  (subLightPos light cells_x cells_y x y px.1 py.1, py.2)

/-- One iteration of the inner cell loop, on the state
`(diffSpecColor, draws made)`. -/
def cellStep (P : Prims) (sc : Scene) (s : Surface) (light : Light) (cells_x cells_y : Int)
    (x y : Nat) (acc : Color × Nat) : Color × Nat :=
  let sp := samplePos P sc light cells_x cells_y x y acc.2
  (addSample P sc s light sp.1 acc.1, sp.2)

/-- The two nested cell loops `for x < cells_x`, `for y < cells_y`. -/
def cellLoop (P : Prims) (sc : Scene) (s : Surface) (light : Light) (cells_x cells_y : Int)
    (acc : Color × Nat) : Color × Nat :=
  (List.range cells_x.toNat).foldl
    (fun accx x => (List.range cells_y.toNat).foldl
      (fun accy y => cellStep P sc s light cells_x cells_y x y accy) accx) acc

/-- The value of an integer in 32-bit two's complement: what an `int` holds
after a multiplication of two `int` values whose product is `z`. -/
def wrapInt32 (z : Int) : Int := (z + 2147483648) % 4294967296 - 2147483648

/-- One iteration of the loop over the lights, on the state `(color, draws made)`:
the cells are accumulated from `Color ()` and the sum, divided by `num_cells`,
is added to `color`.  `num_cells` is the `int` product `cells_x * cells_y`. -/
def lightStep (P : Prims) (sc : Scene) (s : Surface) (acc : Color × Nat) (light : Light) :
    Color × Nat :=
  let cells_x := cellsOf sc light.cells_x
  let cells_y := cellsOf sc light.cells_y
  let num_cells := wrapInt32 (cells_x * cells_y)
  let r := cellLoop P sc s light cells_x cells_y (Triple.zero, acc.2)
  (acc.1 + r.1 / (num_cells : ℚ), r.2)

/-- Ambient term plus the loop over the lights (lines 62 to 130 of `trace`). -/
def localColor (P : Prims) (sc : Scene) (s : Surface) (g : Nat) : Color × Nat :=
  sc.lights.foldl (lightStep P sc s) (s.material.ka • s.matColor, g)

/-- The pair `(n_i, n_t)` of refraction indices on the two sides. -/
def refractionIndices (material : Material) (N V : Vector) : ℚ × ℚ :=
  if V.dot N ≥ 0 then (1, material.nt) else (material.nt, 1)

/-- The value `kr0` of Schlick's approximation. -/
def schlickKr0 (n_i n_t : ℚ) : ℚ := ((n_i - n_t) / (n_i + n_t)) ^ 2

/-- The reflectance `kr` of Schlick's approximation. -/
def schlickKr (n_i n_t cos_phi_i : ℚ) : ℚ :=
  let kr0 := schlickKr0 n_i n_t
  kr0 + (1 - kr0) * (1 - cos_phi_i) ^ 5

/-- The local variables of `trace` for a hit of `obj` with record `min_hit`. -/
def surfaceOf (ray : Ray) (obj : Object) (min_hit : Hit) : Surface :=
  let hit := ray.pointAt min_hit.t
  let V := -ray.D
  { material := obj.material, hit := hit, V := V, shadingN := shadingNormal min_hit.N V,
    matColor := matColor obj hit }

/-- The reflected ray `Ray (hit + epsilon * shadingN, reflect (-V, shadingN))`. -/
def reflectRay (P : Prims) (s : Surface) : Ray :=
  ⟨s.hit + P.epsilon • s.shadingN, P.reflect (-s.V) s.shadingN⟩

/-- The refracted ray `Ray (hit - epsilon * shadingN, refract (-V, shadingN, n_i, n_t))`. -/
def refractRay (P : Prims) (s : Surface) (n_i n_t : ℚ) : Ray :=
  ⟨s.hit - P.epsilon • s.shadingN, P.refract (-s.V) s.shadingN n_i n_t⟩

/-- The body of `Scene::trace` at recursion depth `depth`; `recur` stands for
the recursive call `trace (·, depth - 1)`.  The state passed along is the
number of random draws made. -/
def traceBody (P : Prims) (sc : Scene) (depth : Nat) (recur : Ray → Nat → Color × Nat)
    (ray : Ray) (g : Nat) : Color × Nat :=
  match sc.castRay ray with
  | (none, _) => (⟨0, 0, 0⟩, g)
  | (some obj, min_hit) =>
    let s := surfaceOf ray obj min_hit
    let N := min_hit.N
    let color := localColor P sc s g
    if depth > 0 ∧ s.material.isTransparent = true then
      let n := refractionIndices s.material N s.V
      let kr := schlickKr n.1 n.2 (s.shadingN.dot s.V)
      let kt := 1 - kr
      let reflectColor := recur (reflectRay P s) color.2
      let color1 := color.1 + kr • reflectColor.1
      let refractColor := recur (refractRay P s n.1 n.2) reflectColor.2
      (color1 + kt • refractColor.1, refractColor.2)
    else if depth > 0 ∧ s.material.ks > 0 then
      let reflectColor := recur (reflectRay P s) color.2
      (color.1 + s.material.ks • reflectColor.1, reflectColor.2)
    else
      color

/-- `Scene::trace (ray, depth)`, by recursion on the depth.  At depth `0` the
body makes no recursive call (both branches test `depth > 0`). -/
def trace (P : Prims) (sc : Scene) : Nat → Ray → Nat → Color × Nat
  | 0 => traceBody P sc 0 (fun _ g => (⟨0, 0, 0⟩, g))
  | d + 1 => traceBody P sc (d + 1) (trace P sc d)

/-! ## The local illumination in closed form

The statements of the specification about the light loops, written as sums.
-/

/-- What one light sample at `pos` contributes: nothing when the sample is
occluded, otherwise the diffuse term `max (shadingN · L, 0) × kd × lightColor ×
surfaceColor` plus the specular term `max (reflect (−L, shadingN) · V, 0) ^ n ×
ks × lightColor`, with `L` the normalized direction from the hit point to
the sample. -/
def sampleTerm (P : Prims) (sc : Scene) (s : Surface) (light : Light) (pos : Vector) : Color :=
  let L := P.normalized (pos - s.hit)
  if inShadow P sc s pos L then 0
  else ((max (s.shadingN.dot L) 0 * s.material.kd) • light.color) * s.matColor
    + (P.pow (max ((P.reflect (-L) s.shadingN).dot s.V) 0) s.material.n * s.material.ks)
        • light.color

/-- Random draws consumed per cell: two in `SOFT_JITTERED` mode, else none. -/
def drawsPerCell (sc : Scene) : Nat :=
  if sc.shadowType = ShadowType.SOFT_JITTERED then 2 else 0

/-- Number of cells per axis actually looped over for a light. -/
def gridX (sc : Scene) (light : Light) : Nat := (cellsOf sc light.cells_x).toNat

/-- Number of cells per axis actually looped over for a light. -/
def gridY (sc : Scene) (light : Light) : Nat := (cellsOf sc light.cells_y).toNat

/-- The sample position of cell `(x, y)` of a light whose loop starts after
`g` draws: cells are visited row by row, `y` running fastest. -/
def cellPos (P : Prims) (sc : Scene) (light : Light) (x y : Nat) (g : Nat) : Vector :=
  (samplePos P sc light (cellsOf sc light.cells_x) (cellsOf sc light.cells_y) x y
    (g + drawsPerCell sc * (x * gridY sc light + y))).1

/-- Sum of the contributions of all sampled cells of a light. -/
def lightSum (P : Prims) (sc : Scene) (s : Surface) (light : Light) (g : Nat) : Color :=
  ((List.range (gridX sc light)).map fun x =>
    ((List.range (gridY sc light)).map fun y =>
      sampleTerm P sc s light (cellPos P sc light x y g)).sum).sum

/-- The divisor `num_cells` of a light: the `int` product of the two cell
counts used. -/
def numCells (sc : Scene) (light : Light) : Int :=
  wrapInt32 (cellsOf sc light.cells_x * cellsOf sc light.cells_y)

/-- Average over the sampled cells of a light. -/
def lightAverage (P : Prims) (sc : Scene) (s : Surface) (light : Light) (g : Nat) : Color :=
  lightSum P sc s light g / (numCells sc light : ℚ)

/-- Random draws consumed by the loop of one light. -/
def lightDraws (sc : Scene) (light : Light) : Nat :=
  drawsPerCell sc * (gridY sc light * gridX sc light)

/-- Sum over the lights, in order, of their averages; `g` draws have been made
before the first light. -/
def lightsTotal (P : Prims) (sc : Scene) (s : Surface) : List Light → Nat → Color
  | [], _ => 0
  | l :: ls, g => lightAverage P sc s l g + lightsTotal P sc s ls (g + lightDraws sc l)

/-- Total number of draws consumed by a list of lights. -/
def lightsDraws (sc : Scene) (ls : List Light) : Nat :=
  (ls.map (lightDraws sc)).sum

/-- Local illumination: the ambient term `ka × surfaceColor` plus the sum over
the lights of the average of their sample contributions. -/
def localIllumination (P : Prims) (sc : Scene) (s : Surface) (g : Nat) : Color :=
  s.material.ka • s.matColor + lightsTotal P sc s sc.lights g

/-- The scene with every light `l` replaced by `f l`. -/
def Scene.mapLights (sc : Scene) (f : Light → Light) : Scene :=
  { sc with lights := sc.lights.map f }

/-- Outcome of the scan of `castRay` over a list of objects: either nothing is
returned and every object reports `+infinity`, or the object returned sits at
an index `i`, its hit is the one returned, is finite, is minimal, and is
strictly below every hit at an earlier index. -/
def ScanInv (ray : Ray) (l : List Object) (r : Option Object × Hit) : Prop :=
  (r.1 = none ∧ r.2 = ⟨⊤, Triple.zero⟩ ∧ ∀ o ∈ l, (o.intersect ray).t = ⊤) ∨
  (∃ (i : Nat) (o : Object), r.1 = some o ∧ l[i]? = some o ∧ r.2 = o.intersect ray ∧
    r.2.t < ⊤ ∧ (∀ o' ∈ l, r.2.t ≤ (o'.intersect ray).t) ∧
    ∀ (j : Nat) (o' : Object), j < i → l[j]? = some o' → r.2.t < (o'.intersect ray).t)

/-! ## Example scenes

Horizontal planes seen from between them, lit from above.  All vectors that
are normalized in these scenes are parallel to the `z` axis.
-/

/-- Normalisation used in the examples: division by the sum of the absolute
values of the components, which is the Euclidean length for a vector
parallel to a coordinate axis. -/
def exNormalized (v : Vector) : Vector := v / (|v.x| + |v.y| + |v.z|)

/-- Mirror reflection of the incident direction `I` about the normal `N`. -/
def exReflect (I N : Vector) : Vector := I - (2 * N.dot I) • N

/-- Power with the exponent rounded down to a natural number (exact for the
exponents used in the examples). -/
def exPow (b e : ℚ) : ℚ := b ^ ⌊e⌋.toNat

/-- Primitives of the examples; `refract` passes the direction through, the
refraction direction for equal indices. -/
def exPrims : Prims :=
  { epsilon := 1 / 1000, normalized := exNormalized, reflect := exReflect,
    refract := fun I _ _ _ => I, pow := exPow, rand01 := fun k => 1 / (k + 1) }

/-- Intersection with the horizontal plane `z = h`, normal `(0, 0, 1)`:
hits in front of the origin only. -/
def planeIntersect (h : ℚ) (ray : Ray) : Hit :=
  if ray.D.z = 0 then ⟨⊤, Triple.zero⟩
  else if (h - ray.O.z) / ray.D.z > 0 then ⟨((h - ray.O.z) / ray.D.z : ℚ), ⟨0, 0, 1⟩⟩
  else ⟨⊤, Triple.zero⟩

/-- Intersection with a pair of planes `z = 0` and `z = 1` (one object, two
faces): the nearer of the two hits. -/
def slabIntersect (ray : Ray) : Hit :=
  if (planeIntersect 1 ray).t < (planeIntersect 0 ray).t then planeIntersect 1 ray
  else planeIntersect 0 ray

/-- A red, purely diffuse material (`ks = 0`, so that the colours of the
examples do not depend on `reflect` and `pow`). -/
def exMaterial (tr : Bool) : Material :=
  { color := ⟨1, 0, 0⟩, ka := 1 / 5, kd := 1 / 2, ks := 0, n := 1, nt := 3 / 2,
    isTransparent := tr, hasTexture := false, texture := ⟨fun _ _ => Triple.zero⟩ }

/-- The two-faced object, transparent or not. -/
def exSlab (tr : Bool) : Object :=
  { intersect := slabIntersect, toUV := fun p => p, material := exMaterial tr }

/-- A plane object at height `h`, transparent or not. -/
def exPlane (h : ℚ) (tr : Bool) : Object :=
  { intersect := planeIntersect h, toUV := fun p => p, material := exMaterial tr }

/-- A white light above the planes. -/
def exLight (h : ℚ) : Light := Light.create ⟨0, 0, h⟩ ⟨1, 1, 1⟩ 2 2 1 1

/-- One two-faced object, one light at height `2`, hard shadows. -/
def exSlabScene (tr : Bool) : Scene :=
  { objects := [exSlab tr], lights := [exLight 2], eye := ⟨0, 0, 1 / 2⟩,
    renderShadows := false, shadowType := ShadowType.HARD, recursionDepth := 0,
    supersamplingFactor := 1 }

/-- A floor at `z = 0`, a transparent pane at `z = 1`, an opaque wall at
`z = 2`, and a light at height `3`. -/
def exPaneScene : Scene :=
  { objects := [exPlane 0 false, exPlane 1 true, exPlane 2 false], lights := [exLight 3],
    eye := ⟨0, 0, 1 / 2⟩, renderShadows := false, shadowType := ShadowType.HARD,
    recursionDepth := 0, supersamplingFactor := 1 }

/-- The primary ray of the examples: from between the planes straight down. -/
def exRay : Ray := ⟨⟨0, 0, 1 / 2⟩, ⟨0, 0, -1⟩⟩

/-- The surface data `trace` computes for `exRay` hitting the face `z = 0`. -/
def exSurface (tr : Bool) : Surface :=
  { material := exMaterial tr, hit := ⟨0, 0, 0⟩, V := ⟨0, 0, 1⟩, shadingN := ⟨0, 0, 1⟩,
    matColor := ⟨1, 0, 0⟩ }

/-- The example scene with one two-faced transparent object, in a given
shadow mode. -/
def exModeScene (t : ShadowType) : Scene :=
  { exSlabScene true with shadowType := t }

/-! ## Geometry of the cell grid of a light -/

/-- Left edge of cell column `x` of the grid of a light. -/
def cellLeft (light : Light) (x : Nat) : ℚ :=
  (light.position.x - light.width / 2) + light.width * x / light.cells_x

/-- Right edge of cell column `x` of the grid of a light. -/
def cellRight (light : Light) (x : Nat) : ℚ :=
  (light.position.x - light.width / 2) + light.width * (x + 1) / light.cells_x

/-- Lower edge of cell row `y` of the grid of a light. -/
def cellBottom (light : Light) (y : Nat) : ℚ :=
  (light.position.y - light.height / 2) + light.height * y / light.cells_y

/-- Upper edge of cell row `y` of the grid of a light. -/
def cellTop (light : Light) (y : Nat) : ℚ :=
  (light.position.y - light.height / 2) + light.height * (y + 1) / light.cells_y

/-! ## Unsigned arithmetic -/

/-- Difference of two `unsigned` values: subtraction modulo `2 ^ 32`. -/
def u32sub (a b : Nat) : Nat := (a + (4294967296 - b % 4294967296)) % 4294967296

/-- Product of two `unsigned` values: multiplication modulo `2 ^ 32`. -/
def u32mul (a b : Nat) : Nat := (a * b) % 4294967296

/-! ## `Scene::trace` with its recursive calls made explicit -/

/-- The body of `Scene::trace` over an arbitrary monad `m`: `recur d r g`
stands for the recursive call `trace (r, d)` made after `g` random draws, and
the depth passed is the `unsigned` expression `depth - 1` of the source. -/
def traceBodyM {m : Type → Type} [Monad m] (P : Prims) (sc : Scene) (depth : Nat)
    (recur : Nat → Ray → Nat → m (Color × Nat)) (ray : Ray) (g : Nat) : m (Color × Nat) :=
  match sc.castRay ray with
  | (none, _) => pure (⟨0, 0, 0⟩, g)
  | (some obj, min_hit) =>
    let s := surfaceOf ray obj min_hit
    let N := min_hit.N
    let color := localColor P sc s g
    if depth > 0 ∧ s.material.isTransparent = true then do
      let n := refractionIndices s.material N s.V
      let kr := schlickKr n.1 n.2 (s.shadingN.dot s.V)
      let kt := 1 - kr
      let reflectColor ← recur (u32sub depth 1) (reflectRay P s) color.2
      let color1 := color.1 + kr • reflectColor.1
      let refractColor ← recur (u32sub depth 1) (refractRay P s n.1 n.2) reflectColor.2
      pure (color1 + kt • refractColor.1, refractColor.2)
    else if depth > 0 ∧ s.material.ks > 0 then do
      let reflectColor ← recur (u32sub depth 1) (reflectRay P s) color.2
      pure (color.1 + s.material.ks • reflectColor.1, reflectColor.2)
    else
      pure color

/-- `Scene::trace` run with a bound on the nesting of calls: `fuel` is the
number of nested invocations allowed, the outermost one included, and `none`
means that the bound was exceeded. -/
def traceFuel (P : Prims) (sc : Scene) : Nat → Nat → Ray → Nat → Option (Color × Nat)
  | 0 => fun _ _ _ => none
  | fuel + 1 => fun depth ray g => traceBodyM P sc depth (traceFuel P sc fuel) ray g

/-- A recursive call of `trace`: the depth passed, the ray, and the number of
random draws made before the call. -/
structure Call where
  depth : Nat
  ray : Ray
  draws : Nat

/-- A computation together with the list of the recursive calls it made. -/
def Logged (α : Type) : Type := α × List Call

instance : Monad Logged where
  pure a := (a, [])
  bind x f := ((f x.1).1, x.2 ++ (f x.1).2)

/-- A recursive call that is answered by `ans` and recorded. -/
def loggedCall (ans : Nat → Ray → Nat → Color × Nat) (d : Nat) (r : Ray) (g : Nat) :
    Logged (Color × Nat) :=
  (ans d r g, [⟨d, r, g⟩])

/-- The recursive calls that one invocation `trace (ray, depth)` makes itself,
in order, when recursive calls are answered by `ans`. -/
def directCalls (P : Prims) (sc : Scene) (depth : Nat) (ans : Nat → Ray → Nat → Color × Nat)
    (ray : Ray) (g : Nat) : List Call :=
  (traceBodyM P sc depth (loggedCall ans) ray g).2

/-! ## More example scenes and the setter of the shadow flag -/

/-- A material like that of the examples, opaque, with a negative specular
coefficient. -/
def exNegMaterial : Material :=
  { color := ⟨1, 0, 0⟩, ka := 1 / 5, kd := 1 / 2, ks := -1 / 4, n := 1, nt := 3 / 2,
    isTransparent := false, hasTexture := false, texture := ⟨fun _ _ => Triple.zero⟩ }

/-- The two-faced object with the material `exNegMaterial`. -/
def exNegSlab : Object :=
  { intersect := slabIntersect, toUV := fun p => p, material := exNegMaterial }

/-- One two-faced object with negative specular coefficient, no light. -/
def exNegScene : Scene :=
  { objects := [exNegSlab], lights := [], eye := ⟨0, 0, 1 / 2⟩, renderShadows := false,
    shadowType := ShadowType.HARD, recursionDepth := 1, supersamplingFactor := 1 }

/-- `Scene::setRenderShadows`. -/
def Scene.setRenderShadows (sc : Scene) (shadows : Bool) : Scene :=
  { sc with renderShadows := shadows }

/-! ## `Scene::render` -/

/-- Modelled from the spec: `image.h` is not among the sources.  Width, height
and the pixel at each coordinate. -/
structure Image where
  width : Nat
  height : Nat
  data : Nat → Nat → Color

/-- The assignment `img (x, y) = c`. -/
def Image.set (img : Image) (x y : Nat) (c : Color) : Image :=
  { img with data := fun i j => if i = x ∧ j = y then c else img.data i j }

/-- The point `pixel` of `render` for pixel `(x, y)` and subpixel
`(s_x, s_y)` of an image of height `h`; `h - 1 - y` is `unsigned` arithmetic. -/
def subpixelPoint (h x y s_x s_y factor : Nat) : Point :=
  ⟨x + (1 / 2 + s_x) / factor,
   ((u32sub (u32sub h 1) y : Nat) : ℚ) + (1 / 2 + s_y) / factor,
   0⟩

/-- The primary ray `Ray (eye, (pixel - eye).normalized ())`. -/
def primaryRay (P : Prims) (sc : Scene) (pixel : Point) : Ray :=
  ⟨sc.eye, P.normalized (pixel - sc.eye)⟩

/-- One iteration of the inner subpixel loop, on the state `(col, draws made)`;
`clamp` is the function `Triple::clamp`, defined outside the two source
files. -/
def subpixelStep (P : Prims) (clamp : Color → Color) (sc : Scene) (h x y s_x s_y : Nat)
    (acc : Color × Nat) : Color × Nat :=
  let pixel := subpixelPoint h x y s_x s_y sc.supersamplingFactor
  let ray := primaryRay P sc pixel
  let t := trace P sc sc.recursionDepth ray acc.2
  (acc.1 + clamp t.1, t.2)

/-- The two nested subpixel loops of a pixel, from `Color ()`. -/
def subpixelLoop (P : Prims) (clamp : Color → Color) (sc : Scene) (h x y : Nat) (g : Nat) :
    Color × Nat :=
  (List.range sc.supersamplingFactor).foldl
    (fun accx s_x => (List.range sc.supersamplingFactor).foldl
      (fun accy s_y => subpixelStep P clamp sc h x y s_x s_y accy) accx) (Triple.zero, g)

/-- The value stored for pixel `(x, y)`: the accumulated colour divided by the
`unsigned` product `supersamplingFactor * supersamplingFactor`. -/
def pixelColor (P : Prims) (clamp : Color → Color) (sc : Scene) (h x y : Nat) (g : Nat) :
    Color × Nat :=
  let r := subpixelLoop P clamp sc h x y g
  (r.1 / ((u32mul sc.supersamplingFactor sc.supersamplingFactor : Nat) : ℚ), r.2)

/-- One iteration of the loop over `x`, on the state `(img, draws made)`. -/
def pixelStep (P : Prims) (clamp : Color → Color) (sc : Scene) (h y : Nat)
    (acc : Image × Nat) (x : Nat) : Image × Nat :=
  let r := pixelColor P clamp sc h x y acc.2
  (acc.1.set x y r.1, r.2)

/-- `Scene::render`: the image after the loops and the number of random draws
made. -/
def render (P : Prims) (clamp : Color → Color) (sc : Scene) (img : Image) (g : Nat) :
    Image × Nat :=
  let w := img.width
  let h := img.height
  (List.range h).foldl
    (fun accy y => (List.range w).foldl (pixelStep P clamp sc h y) accy) (img, g)

/-- The subpixel rays of pixel `(x, y)`, in the order they are traced. -/
def subpixelRays (P : Prims) (sc : Scene) (h x y : Nat) : List Ray :=
  ((List.range sc.supersamplingFactor).map fun s_x =>
    (List.range sc.supersamplingFactor).map fun s_y =>
      primaryRay P sc (subpixelPoint h x y s_x s_y sc.supersamplingFactor)).flatten

/-- Sum of the clamped colours traced along a list of rays, in order; `g`
draws have been made before the first ray. -/
def clampedSum (P : Prims) (clamp : Color → Color) (sc : Scene) : List Ray → Nat → Color × Nat
  | [], g => (0, g)
  | r :: rs, g =>
    let t := trace P sc sc.recursionDepth r g
    let rest := clampedSum P clamp sc rs t.2
    (clamp t.1 + rest.1, rest.2)

/-- Clamping of each channel to `[0, 1]`, used in the examples. -/
def exClamp (c : Color) : Color :=
  ⟨min (max c.x 0) 1, min (max c.y 0) 1, min (max c.z 0) 1⟩

/-- A floor below the eye, no light, and a supersampling factor whose square
exceeds `2 ^ 32`. -/
def exBigScene : Scene :=
  { objects := [exPlane (-1) false], lights := [], eye := ⟨1 / 2, 1 / 2, 1⟩,
    renderShadows := false, shadowType := ShadowType.HARD, recursionDepth := 0,
    supersamplingFactor := 65537 }

/-- An image of one pixel. -/
def exImage : Image := { width := 1, height := 1, data := fun _ _ => Triple.zero }

/-- The value stored at `(x, y)` is the one `render` computes for that pixel,
for some number of random draws made before. -/
def Stored (P : Prims) (clamp : Color → Color) (sc : Scene) (h : Nat) (img : Image)
    (x y : Nat) : Prop :=
  ∃ g, img.data x y = (pixelColor P clamp sc h x y g).1

/-- A material like that of the examples, opaque, with a positive specular
coefficient. -/
def exShinyMaterial : Material :=
  { color := ⟨1, 0, 0⟩, ka := 1 / 5, kd := 1 / 2, ks := 1 / 4, n := 1, nt := 3 / 2,
    isTransparent := false, hasTexture := false, texture := ⟨fun _ _ => Triple.zero⟩ }

/-- The two-faced object with the material `exShinyMaterial`. -/
def exShinySlab : Object :=
  { intersect := slabIntersect, toUV := fun p => p, material := exShinyMaterial }

/-- One two-faced object with positive specular coefficient, no light. -/
def exShinyScene : Scene :=
  { objects := [exShinySlab], lights := [], eye := ⟨0, 0, 1 / 2⟩, renderShadows := false,
    shadowType := ShadowType.HARD, recursionDepth := 1, supersamplingFactor := 1 }

/-! ## Example scenes: a floor under one light

A floor `z = 0` seen from above, under one light at height `2`.  In the grid
scenes the light samples are spread over the light, so the directions that
are normalized are not all parallel to the `z` axis; of a normalized
direction these scenes use only that its third component is positive (the
shadow ray then leaves the floor), which holds for the normalisation of the
examples as for the Euclidean one.
-/

/-- A material without diffuse term and with shininess `0`, so that the
specular term of an unoccluded light sample is `ks × lightColor` whatever
the direction of the sample is (`std::pow (x, 0) = 1`). -/
def exGlossMaterial : Material :=
  { color := ⟨1, 0, 0⟩, ka := 1 / 5, kd := 0, ks := 1 / 4, n := 0, nt := 3 / 2,
    isTransparent := false, hasTexture := false, texture := ⟨fun _ _ => Triple.zero⟩ }

/-- A floor `z = 0` with the material `exGlossMaterial`. -/
def exGlossFloor : Object :=
  { intersect := planeIntersect 0, toUV := fun p => p, material := exGlossMaterial }

/-- A white light at height `2`, of width and height `1`, with a grid of `n`
by `n` cells. -/
def exGridLight (n : Int) : Light := Light.create ⟨0, 0, 2⟩ ⟨1, 1, 1⟩ n n 1 1

/-- The floor `exGlossFloor` under the light `exGridLight n`, banded soft
shadows. -/
def exGridScene (n : Int) : Scene :=
  { objects := [exGlossFloor], lights := [exGridLight n], eye := ⟨0, 0, 1 / 2⟩,
    renderShadows := false, shadowType := ShadowType.SOFT_BANDING, recursionDepth := 0,
    supersamplingFactor := 1 }

/-- The surface data `trace` computes for `exRay` hitting `exGlossFloor`. -/
def exGlossSurface : Surface :=
  { material := exGlossMaterial, hit := ⟨0, 0, 0⟩, V := ⟨0, 0, 1⟩, shadingN := ⟨0, 0, 1⟩,
    matColor := ⟨1, 0, 0⟩ }

/-! ## Vector algebra lemmas -/

namespace Triple

@[simp]
theorem mk_add_mk (a b c d e f : ℚ) :
    (⟨a, b, c⟩ : Triple) + ⟨d, e, f⟩ = ⟨a + d, b + e, c + f⟩ := rfl

@[simp]
theorem mk_sub_mk (a b c d e f : ℚ) :
    (⟨a, b, c⟩ : Triple) - ⟨d, e, f⟩ = ⟨a - d, b - e, c - f⟩ := rfl

@[simp]
theorem neg_mk (a b c : ℚ) : -(⟨a, b, c⟩ : Triple) = ⟨-a, -b, -c⟩ := rfl

@[simp]
theorem mk_mul_mk (a b c d e f : ℚ) :
    (⟨a, b, c⟩ : Triple) * ⟨d, e, f⟩ = ⟨a * d, b * e, c * f⟩ := rfl

@[simp]
theorem smul_mk (k a b c : ℚ) : k • (⟨a, b, c⟩ : Triple) = ⟨k * a, k * b, k * c⟩ := rfl

@[simp]
theorem mk_div (a b c k : ℚ) : (⟨a, b, c⟩ : Triple) / k = ⟨a / k, b / k, c / k⟩ := rfl

@[simp]
theorem dot_mk (a b c d e f : ℚ) : dot ⟨a, b, c⟩ ⟨d, e, f⟩ = a * d + b * e + c * f := rfl

@[simp]
theorem length_2_mk (a b c : ℚ) : length_2 ⟨a, b, c⟩ = a * a + b * b + c * c := rfl

theorem zero_def : (0 : Triple) = ⟨0, 0, 0⟩ := rfl

@[simp]
theorem add_x (a b : Triple) : (a + b).x = a.x + b.x := rfl

@[simp]
theorem add_y (a b : Triple) : (a + b).y = a.y + b.y := rfl

@[simp]
theorem add_z (a b : Triple) : (a + b).z = a.z + b.z := rfl

@[simp]
theorem sub_x (a b : Triple) : (a - b).x = a.x - b.x := rfl

@[simp]
theorem sub_y (a b : Triple) : (a - b).y = a.y - b.y := rfl

@[simp]
theorem sub_z (a b : Triple) : (a - b).z = a.z - b.z := rfl

@[simp]
theorem div_x (a : Triple) (k : ℚ) : (a / k).x = a.x / k := rfl

@[simp]
theorem div_y (a : Triple) (k : ℚ) : (a / k).y = a.y / k := rfl

@[simp]
theorem div_z (a : Triple) (k : ℚ) : (a / k).z = a.z / k := rfl

@[simp]
theorem smul_x (k : ℚ) (a : Triple) : (k • a).x = k * a.x := rfl

@[simp]
theorem smul_y (k : ℚ) (a : Triple) : (k • a).y = k * a.y := rfl

@[simp]
theorem smul_z (k : ℚ) (a : Triple) : (k • a).z = k * a.z := rfl

@[simp]
theorem zero_x : (0 : Triple).x = 0 := rfl

@[simp]
theorem zero_y : (0 : Triple).y = 0 := rfl

@[simp]
theorem zero_z : (0 : Triple).z = 0 := rfl

/-- Dividing by one changes nothing. -/
theorem divScalar_one (a : Triple) : a / (1 : ℚ) = a := by
  ext <;> simp

/-- The sum of `n` copies of a colour, divided by `n`, is that colour. -/
theorem nsmul_div_self (n : Nat) (hn : 0 < n) (c : Triple) : (n • c) / (n : ℚ) = c := by
  have h : (n : ℚ) ≠ 0 := by exact_mod_cast hn.ne'
  have e : n • c = (n : ℚ) • c := by
    rw [Nat.cast_smul_eq_nsmul]
  rw [e]
  ext <;> simp [mul_div_cancel_left₀ _ h]

end Triple


/-! ## The loops of `trace` as sums -/

/-- A loop over `0, …, n − 1` whose step adds `f i g` to the colour and `k` to
the draw count adds the sum of the `f i`, each taken at its own draw count. -/
theorem foldl_range_acc (f : Nat → Nat → Color) (k : Nat) (step : Color × Nat → Nat → Color × Nat)
    (hstep : ∀ i acc, step acc i = (acc.1 + f i acc.2, acc.2 + k)) (n : Nat) (acc : Color × Nat) :
    (List.range n).foldl step acc
      = (acc.1 + ((List.range n).map fun i => f i (acc.2 + k * i)).sum, acc.2 + k * n) := by
  induction n with
  | zero => simp
  | succ n ih =>
    rw [List.range_succ, List.foldl_append, ih, List.foldl_cons, List.foldl_nil, hstep,
      List.map_append, List.sum_append]
    simp [add_assoc, Nat.mul_succ]

/-- The body of the cell loop adds the contribution of the sample. -/
theorem addSample_eq (P : Prims) (sc : Scene) (s : Surface) (light : Light) (pos : Vector)
    (c : Color) : addSample P sc s light pos c = c + sampleTerm P sc s light pos := by
  unfold addSample sampleTerm diffuseTerm specularTerm
  by_cases h : inShadow P sc s pos (P.normalized (pos - s.hit)) = true
  · simp [h]
  · simp [h, add_assoc]

/-- Fixing a sample position consumes `drawsPerCell` draws. -/
theorem samplePos_snd (P : Prims) (sc : Scene) (light : Light) (cx cy : Int) (x y g : Nat) :
    (samplePos P sc light cx cy x y g).2 = g + drawsPerCell sc := by
  unfold samplePos cellOffset drawsPerCell
  by_cases h : sc.shadowType = ShadowType.SOFT_JITTERED <;> simp [h]

/-- One iteration of the cell loop, in closed form. -/
theorem cellStep_eq (P : Prims) (sc : Scene) (s : Surface) (light : Light) (cx cy : Int)
    (x y : Nat) (acc : Color × Nat) :
    cellStep P sc s light cx cy x y acc
      = (acc.1 + sampleTerm P sc s light (samplePos P sc light cx cy x y acc.2).1,
         acc.2 + drawsPerCell sc) := by
  unfold cellStep
  simp only [addSample_eq, samplePos_snd]

/-- The two nested cell loops, in closed form. -/
theorem cellLoop_eq (P : Prims) (sc : Scene) (s : Surface) (light : Light) (cx cy : Int)
    (acc : Color × Nat) :
    cellLoop P sc s light cx cy acc
      = (acc.1 + ((List.range cx.toNat).map fun x =>
            ((List.range cy.toNat).map fun y =>
              sampleTerm P sc s light
                (samplePos P sc light cx cy x y
                  (acc.2 + drawsPerCell sc * (x * cy.toNat + y))).1).sum).sum,
         acc.2 + drawsPerCell sc * (cy.toNat * cx.toNat)) := by
  unfold cellLoop
  have inner : ∀ (x : Nat) (a : Color × Nat),
      (List.range cy.toNat).foldl (fun accy y => cellStep P sc s light cx cy x y accy) a
        = (a.1 + ((List.range cy.toNat).map fun y =>
              sampleTerm P sc s light
                (samplePos P sc light cx cy x y (a.2 + drawsPerCell sc * y)).1).sum,
           a.2 + drawsPerCell sc * cy.toNat) := by
    intro x a
    exact foldl_range_acc (fun y g => sampleTerm P sc s light (samplePos P sc light cx cy x y g).1)
      (drawsPerCell sc) _ (fun y a => cellStep_eq P sc s light cx cy x y a) cy.toNat a
  rw [foldl_range_acc (fun x g => ((List.range cy.toNat).map fun y =>
              sampleTerm P sc s light
                (samplePos P sc light cx cy x y (g + drawsPerCell sc * y)).1).sum)
      (drawsPerCell sc * cy.toNat) _ (fun x a => inner x a) cx.toNat acc]
  have e : ∀ x y : Nat, acc.2 + drawsPerCell sc * (cy.toNat * x) + drawsPerCell sc * y
      = acc.2 + drawsPerCell sc * (x * cy.toNat + y) := by
    intro x y; ring
  simp only [e, mul_assoc]

/-- One iteration of the light loop adds the average of the light. -/
theorem lightStep_eq (P : Prims) (sc : Scene) (s : Surface) (acc : Color × Nat) (light : Light) :
    lightStep P sc s acc light
      = (acc.1 + lightAverage P sc s light acc.2, acc.2 + lightDraws sc light) := by
  unfold lightStep
  simp only [cellLoop_eq]
  simp only [lightAverage, lightSum, lightDraws, cellPos, gridX, gridY, numCells]
  have z : (Triple.zero : Color) = 0 := rfl
  rw [z, zero_add]

/-- The loop over the lights adds the sum of the averages. -/
theorem foldl_lightStep (P : Prims) (sc : Scene) (s : Surface) (ls : List Light)
    (acc : Color × Nat) :
    ls.foldl (lightStep P sc s) acc
      = (acc.1 + lightsTotal P sc s ls acc.2, acc.2 + lightsDraws sc ls) := by
  induction ls generalizing acc with
  | nil => simp [lightsTotal, lightsDraws]
  | cons l ls ih =>
    rw [List.foldl_cons, ih, lightStep_eq]
    simp [lightsTotal, lightsDraws, add_assoc]

/-- Lines 62 to 130 of `trace` compute the local illumination. -/
theorem localColor_eq (P : Prims) (sc : Scene) (s : Surface) (g : Nat) :
    localColor P sc s g = (localIllumination P sc s g, g + lightsDraws sc sc.lights) := by
  unfold localColor localIllumination
  rw [foldl_lightStep]

/-- At depth `0` a hit returns the colour after the light loop. -/
theorem trace_zero_hit (P : Prims) (sc : Scene) (ray : Ray) (g : Nat) (obj : Object)
    (min_hit : Hit) (hres : sc.castRay ray = (some obj, min_hit)) :
    trace P sc 0 ray g = localColor P sc (surfaceOf ray obj min_hit) g := by
  simp [trace, traceBody, hres]

/-- At positive depth a hit on a transparent material takes the first branch. -/
theorem trace_succ_transparent (P : Prims) (sc : Scene) (ray : Ray) (d g : Nat) (obj : Object)
    (min_hit : Hit) (hres : sc.castRay ray = (some obj, min_hit))
    (htr : obj.material.isTransparent = true) :
    trace P sc (d + 1) ray g =
      (let s := surfaceOf ray obj min_hit
       let color := localColor P sc s g
       let n := refractionIndices s.material min_hit.N s.V
       let kr := schlickKr n.1 n.2 (s.shadingN.dot s.V)
       let reflectColor := trace P sc d (reflectRay P s) color.2
       let refractColor := trace P sc d (refractRay P s n.1 n.2) reflectColor.2
       (color.1 + kr • reflectColor.1 + (1 - kr) • refractColor.1, refractColor.2)) := by
  have hs : (surfaceOf ray obj min_hit).material = obj.material := rfl
  simp [trace, traceBody, hres, hs, htr]

/-- An unoccluded sample contributes its diffuse and specular terms. -/
theorem sampleTerm_of_lit (P : Prims) (sc : Scene) (s : Surface) (light : Light) (pos : Vector)
    (h : inShadow P sc s pos (P.normalized (pos - s.hit)) = false) :
    sampleTerm P sc s light pos
      = diffuseTerm s light (P.normalized (pos - s.hit))
        + specularTerm P s light (P.normalized (pos - s.hit)) := by
  unfold sampleTerm diffuseTerm specularTerm
  simp [h]

/-- An occluded sample contributes nothing. -/
theorem sampleTerm_of_dark (P : Prims) (sc : Scene) (s : Surface) (light : Light) (pos : Vector)
    (h : inShadow P sc s pos (P.normalized (pos - s.hit)) = true) :
    sampleTerm P sc s light pos = 0 := by
  unfold sampleTerm
  simp [h]

/-- Sum of a constant over `0, …, n − 1`. -/
theorem sum_map_const_range (n : Nat) (c : Color) :
    ((List.range n).map fun _ => c).sum = n • c := by
  induction n with
  | zero => simp
  | succ n ih =>
    rw [List.range_succ, List.map_append, List.sum_append, ih]
    simp [succ_nsmul]

/-- Sums over `0, …, n − 1` of functions that agree below `n` are equal. -/
theorem sum_map_congr_range (n : Nat) (f g : Nat → Color) (h : ∀ i, i < n → f i = g i) :
    ((List.range n).map f).sum = ((List.range n).map g).sum := by
  have : (List.range n).map f = (List.range n).map g :=
    List.map_congr_left (fun i hi => h i (List.mem_range.1 hi))
  rw [this]

/-- An integer in the range of `int` is its own 32-bit value. -/
theorem wrapInt32_of_range (z : Int) (h0 : -2147483648 ≤ z) (h1 : z < 2147483648) :
    wrapInt32 z = z := by
  unfold wrapInt32
  omega

/-- For positive cell counts whose product fits in an `int`, the divisor is
the number of cells looped over. -/
theorem numCells_cast (sc : Scene) (light : Light) (hx : 1 ≤ light.cells_x)
    (hy : 1 ≤ light.cells_y)
    (hfit : cellsOf sc light.cells_x * cellsOf sc light.cells_y < 2147483648) :
    (numCells sc light : ℚ) = ((gridX sc light * gridY sc light : Nat) : ℚ) := by
  have h1 : 0 ≤ cellsOf sc light.cells_x := by
    unfold cellsOf; split <;> omega
  have h2 : 0 ≤ cellsOf sc light.cells_y := by
    unfold cellsOf; split <;> omega
  unfold numCells gridX gridY
  rw [wrapInt32_of_range _ (by have := mul_nonneg h1 h2; omega) hfit]
  rw [Nat.cast_mul, Int.cast_mul]
  congr 1
  · exact_mod_cast (Int.toNat_of_nonneg h1).symm
  · exact_mod_cast (Int.toNat_of_nonneg h2).symm

/-- For positive cell counts at least one cell is looped over. -/
theorem grid_pos (sc : Scene) (light : Light) (hx : 1 ≤ light.cells_x)
    (hy : 1 ≤ light.cells_y) : 0 < gridX sc light * gridY sc light := by
  have h1 : 1 ≤ cellsOf sc light.cells_x := by
    unfold cellsOf; split <;> omega
  have h2 : 1 ≤ cellsOf sc light.cells_y := by
    unfold cellsOf; split <;> omega
  unfold gridX gridY
  apply Nat.mul_pos <;> omega

/-! ## The scan of `castRay` -/

/-- The scan establishes `ScanInv` for the list scanned. -/
theorem scanInv_foldl (ray : Ray) (l : List Object) :
    ScanInv ray l (l.foldl (castRayStep ray) (none, (⟨⊤, Triple.zero⟩ : Hit))) := by
  induction l using List.reverseRecOn with
  | nil => exact Or.inl ⟨rfl, rfl, fun o ho => absurd ho (List.not_mem_nil o)⟩
  | append_singleton l a ih =>
    rw [List.foldl_append, List.foldl_cons, List.foldl_nil]
    generalize l.foldl (castRayStep ray) (none, (⟨⊤, Triple.zero⟩ : Hit)) = r at ih
    unfold castRayStep
    by_cases hlt : (a.intersect ray).t < r.2.t
    · simp only [hlt, if_true]
      refine Or.inr ⟨l.length, a, rfl, by simp, rfl, lt_of_lt_of_le hlt le_top, ?_, ?_⟩
      · intro o' ho'
        rcases List.mem_append.1 ho' with h | h
        · rcases ih with ⟨_, h2, h3⟩ | ⟨i, o, _, _, _, _, h5, _⟩
          · rw [h3 o' h]; exact le_top
          · exact le_trans (le_of_lt hlt) (h5 o' h)
        · rw [List.mem_singleton.1 h]
      · intro j o' hj hget
        rw [List.getElem?_append_left hj] at hget
        have hmem : o' ∈ l := List.getElem?_mem hget
        rcases ih with ⟨_, h2, h3⟩ | ⟨i, o, _, _, _, _, h5, _⟩
        · rw [h3 o' hmem] at *; exact lt_of_lt_of_le hlt le_top
        · exact lt_of_lt_of_le hlt (h5 o' hmem)
    · simp only [hlt, if_false]
      rcases ih with ⟨h1, h2, h3⟩ | ⟨i, o, h1, h2, h3, h4, h5, h6⟩
      · refine Or.inl ⟨h1, h2, ?_⟩
        intro o' ho'
        rcases List.mem_append.1 ho' with h | h
        · exact h3 o' h
        · rw [List.mem_singleton.1 h]
          rw [h2] at hlt
          exact top_le_iff.1 (not_lt.1 hlt)
      · have hi : i < l.length := by
          rcases List.getElem?_eq_some.1 h2 with ⟨hi, _⟩
          exact hi
        refine Or.inr ⟨i, o, h1, ?_, h3, h4, ?_, ?_⟩
        · rw [List.getElem?_append_left hi]; exact h2
        · intro o' ho'
          rcases List.mem_append.1 ho' with h | h
          · exact h5 o' h
          · rw [List.mem_singleton.1 h]; exact not_lt.1 hlt
        · intro j o' hj hget
          rw [List.getElem?_append_left (lt_trans hj hi)] at hget
          exact h6 j o' hj hget

/-- The result of `castRay` satisfies `ScanInv` for the objects of the scene. -/
theorem castRay_scanInv (sc : Scene) (ray : Ray) : ScanInv ray sc.objects (sc.castRay ray) :=
  scanInv_foldl ray sc.objects

/-- A ray that every object reports at `+infinity` gets the initial pair. -/
theorem castRay_miss (sc : Scene) (ray : Ray)
    (hmiss : ∀ o ∈ sc.objects, (o.intersect ray).t = ⊤) :
    sc.castRay ray = (none, ⟨⊤, Triple.zero⟩) := by
  rcases castRay_scanInv sc ray with ⟨h1, h2, _⟩ | ⟨i, o, _, h2, h3, h4, _, _⟩
  · exact Prod.ext h1 h2
  · rw [h3, hmiss o (List.getElem?_mem h2)] at h4
    exact absurd h4 (lt_irrefl _)

/-- The shadow flag when `castRay` returns an object for the shadow ray. -/
theorem inShadow_of_castRay (P : Prims) (sc : Scene) (s : Surface) (pos L : Vector) (o : Object)
    (h : Hit) (hres : sc.castRay (shadowRay P s L) = (some o, h)) :
    inShadow P sc s pos L
      = (if (pos - s.hit).length_2 ≤ ((shadowRay P s L).pointAt h.t - s.hit).length_2 then false
         else if o.material.isTransparent then false else true) := by
  unfold inShadow
  rw [hres]

/-- The shadow flag when `castRay` returns no object for the shadow ray. -/
theorem inShadow_of_castRay_none (P : Prims) (sc : Scene) (s : Surface) (pos L : Vector)
    (hres : (sc.castRay (shadowRay P s L)).1 = none) :
    inShadow P sc s pos L = false := by
  unfold inShadow
  rcases h : sc.castRay (shadowRay P s L) with ⟨_ | o, hit⟩
  · rfl
  · rw [h] at hres; exact absurd hres (by simp)

/-! ## Changing transparency flags and refraction indices -/

/-- The centre of the single cell is the position of the light. -/
theorem subLightPos_center (light : Light) :
    subLightPos light 1 1 0 0 (1 / 2) (1 / 2) = light.position := by
  unfold subLightPos
  ext <;> simp <;> ring

/-- In `HARD` mode the sample position is the position of the light. -/
theorem hard_samplePos (P : Prims) (sc : Scene) (light : Light) (g : Nat)
    (hh : sc.shadowType = ShadowType.HARD) :
    samplePos P sc light (cellsOf sc light.cells_x) (cellsOf sc light.cells_y) 0 0 g
      = (light.position, g) := by
  have h := subLightPos_center light
  simp only [one_div] at h
  simp [samplePos, cellOffset, cellsOf, hh, h]

/-- In `HARD` mode the average of a light is its single sample. -/
theorem hard_lightAverage (P : Prims) (sc : Scene) (s : Surface) (light : Light) (g : Nat)
    (hh : sc.shadowType = ShadowType.HARD) :
    lightAverage P sc s light g = sampleTerm P sc s light light.position := by
  have hx : gridX sc light = 1 := by simp [gridX, cellsOf, hh]
  have hy : gridY sc light = 1 := by simp [gridY, cellsOf, hh]
  have hn : numCells sc light = 1 := by simp [numCells, cellsOf, hh, wrapInt32]
  have hd : drawsPerCell sc = 0 := by simp [drawsPerCell, hh]
  unfold lightAverage lightSum cellPos
  have r1 : List.range 1 = [0] := rfl
  rw [hx, hy, hn, hd, r1]
  simp [hard_samplePos P sc light g hh, Triple.divScalar_one]

/-- In `HARD` mode a light consumes no random draw. -/
theorem hard_lightDraws (sc : Scene) (light : Light) (hh : sc.shadowType = ShadowType.HARD) :
    lightDraws sc light = 0 := by
  simp [lightDraws, drawsPerCell, hh]

/-- In `HARD` mode one iteration of the light loop adds the single sample. -/
theorem hard_lightStep (P : Prims) (sc : Scene) (s : Surface) (acc : Color × Nat) (light : Light)
    (hh : sc.shadowType = ShadowType.HARD) :
    lightStep P sc s acc light = (acc.1 + sampleTerm P sc s light light.position, acc.2) := by
  rw [lightStep_eq, hard_lightAverage P sc s light acc.2 hh, hard_lightDraws sc light hh]
  rfl

/-- In `HARD` mode the cell loops run the body once, at the light position. -/
theorem hard_cellLoop (P : Prims) (sc : Scene) (s : Surface) (light : Light) (acc : Color × Nat)
    (hh : sc.shadowType = ShadowType.HARD) :
    cellLoop P sc s light (cellsOf sc light.cells_x) (cellsOf sc light.cells_y) acc
      = (addSample P sc s light light.position acc.1, acc.2) := by
  have h1 : cellsOf sc light.cells_x = 1 := by simp [cellsOf, hh]
  have h2 : cellsOf sc light.cells_y = 1 := by simp [cellsOf, hh]
  have h := hard_samplePos P sc light acc.2 hh
  rw [h1, h2] at h
  have r1 : List.range 1 = [0] := rfl
  rw [h1, h2]
  simp [cellLoop, cellStep, h, r1]

/-- In `HARD` mode, with one light, the colour after the light loop. -/
theorem hard_localColor_one (P : Prims) (sc : Scene) (s : Surface) (light : Light) (g : Nat)
    (hh : sc.shadowType = ShadowType.HARD) (hl : sc.lights = [light]) :
    localColor P sc s g
      = (s.material.ka • s.matColor + sampleTerm P sc s light light.position, g) := by
  unfold localColor
  rw [hl, List.foldl_cons, List.foldl_nil, hard_lightStep P sc s _ light hh]

/-- The body of `trace` depends on the scene through `castRay` and the light
loop only. -/
theorem traceBody_congr (P : Prims) (sc sc' : Scene) (depth : Nat)
    (recur recur' : Ray → Nat → Color × Nat) (ray : Ray) (g : Nat)
    (hc : sc'.castRay ray = sc.castRay ray)
    (hl : ∀ s g, localColor P sc' s g = localColor P sc s g)
    (hr : ∀ r g, recur' r g = recur r g) :
    traceBody P sc' depth recur' ray g = traceBody P sc depth recur ray g := by
  unfold traceBody
  rw [hc]
  rcases sc.castRay ray with ⟨_ | obj, min_hit⟩
  · rfl
  · simp only [hl, hr]

/-- A sample contribution depends on the light through its colour only. -/
theorem sampleTerm_congr_light (P : Prims) (sc sc' : Scene) (s : Surface) (l l' : Light)
    (pos : Vector) (ho : sc'.objects = sc.objects) (hcol : l'.color = l.color) :
    sampleTerm P sc' s l' pos = sampleTerm P sc s l pos := by
  have hin : ∀ L, inShadow P sc' s pos L = inShadow P sc s pos L := by
    intro L
    unfold inShadow Scene.castRay
    rw [ho]
  unfold sampleTerm
  simp only [hin, hcol]

/-- In `HARD` mode the light loop only reads position and colour of a light. -/
theorem hard_localColor_mapLights (P : Prims) (sc : Scene) (f : Light → Light)
    (hh : sc.shadowType = ShadowType.HARD)
    (hf : ∀ l, (f l).position = l.position ∧ (f l).color = l.color) (s : Surface) (g : Nat) :
    localColor P (sc.mapLights f) s g = localColor P sc s g := by
  unfold localColor
  have hl : (sc.mapLights f).lights = sc.lights.map f := rfl
  rw [hl, List.foldl_map]
  congr 1
  funext acc l
  rw [hard_lightStep P (sc.mapLights f) s acc (f l) hh, hard_lightStep P sc s acc l hh,
    (hf l).1, sampleTerm_congr_light P sc (sc.mapLights f) s l (f l) l.position rfl (hf l).2]

/-- In `HARD` mode `trace` only reads position and colour of a light. -/
theorem hard_trace_mapLights (P : Prims) (sc : Scene) (f : Light → Light)
    (hh : sc.shadowType = ShadowType.HARD)
    (hf : ∀ l, (f l).position = l.position ∧ (f l).color = l.color) (d : Nat) :
    ∀ ray g, trace P (sc.mapLights f) d ray g = trace P sc d ray g := by
  induction d with
  | zero =>
    intro ray g
    exact traceBody_congr P sc (sc.mapLights f) 0 _ _ ray g rfl
      (hard_localColor_mapLights P sc f hh hf) (fun _ _ => rfl)
  | succ d ih =>
    intro ray g
    exact traceBody_congr P sc (sc.mapLights f) (d + 1) _ _ ray g rfl
      (hard_localColor_mapLights P sc f hh hf) ih

/-! ## Soft shadows -/

/-- Outside `HARD` mode the sample position of a cell. -/
theorem soft_samplePos (P : Prims) (sc : Scene) (light : Light) (x y g : Nat)
    (hs : sc.shadowType ≠ ShadowType.HARD) :
    (samplePos P sc light (cellsOf sc light.cells_x) (cellsOf sc light.cells_y) x y g).1
      = subLightPos light light.cells_x light.cells_y x y
          (if sc.shadowType = ShadowType.SOFT_JITTERED then P.rand01 g else 1 / 2)
          (if sc.shadowType = ShadowType.SOFT_JITTERED then P.rand01 (g + 1) else 1 / 2) := by
  unfold samplePos cellOffset cellsOf
  by_cases hj : sc.shadowType = ShadowType.SOFT_JITTERED <;> simp [hs, hj]

/-- One axis of the cell grid: the sample lies in its cell, the cell in the
footprint. -/
theorem axis_in_cell (c w p : ℚ) (n : Int) (i : Nat) (hw : 0 < w) (hi : (i : Int) < n)
    (hp0 : 0 ≤ p) (hp1 : p ≤ 1) :
    c - w / 2 + w * i / n ≤ c - w / 2 + w * (p + i) / n ∧
    c - w / 2 + w * (p + i) / n ≤ c - w / 2 + w * (i + 1) / n ∧
    c - w / 2 ≤ c - w / 2 + w * i / n ∧
    c - w / 2 + w * (i + 1) / n ≤ c + w / 2 := by
  have hn0 : (0 : ℚ) < n := by
    have : (0 : Int) < n := lt_of_le_of_lt (Int.ofNat_nonneg i) hi
    exact_mod_cast this
  have hin : (i : ℚ) + 1 ≤ n := by
    have : (i : Int) + 1 ≤ n := hi
    exact_mod_cast this
  have hi0 : (0 : ℚ) ≤ i := Nat.cast_nonneg i
  refine ⟨?_, ?_, ?_, ?_⟩
  · have : w * i / n ≤ w * (p + i) / n :=
      div_le_div_of_nonneg_right (mul_le_mul_of_nonneg_left (by linarith) hw.le) hn0.le
    linarith
  · have : w * (p + i) / n ≤ w * (i + 1) / n :=
      div_le_div_of_nonneg_right (mul_le_mul_of_nonneg_left (by linarith) hw.le) hn0.le
    linarith
  · have : 0 ≤ w * i / n := div_nonneg (mul_nonneg hw.le hi0) hn0.le
    linarith
  · have : w * (i + 1) / n ≤ w := by
      rw [div_le_iff₀ hn0]
      exact mul_le_mul_of_nonneg_left hin hw.le
    linarith

/-! ## The example scenes evaluated -/

/-- The shadow ray of the examples starts just above the floor, upwards. -/
theorem ex_shadowRay (tr : Bool) :
    shadowRay exPrims (exSurface tr) ⟨0, 0, 1⟩ = ⟨⟨0, 0, 1 / 1000⟩, ⟨0, 0, 1⟩⟩ := by
  simp [shadowRay, exSurface, exPrims]

/-- A plane that the ray reaches at a positive distance is hit there. -/
theorem planeIntersect_hit (h : ℚ) (ray : Ray) (hd : ray.D.z ≠ 0)
    (ht : 0 < (h - ray.O.z) / ray.D.z) :
    planeIntersect h ray = ⟨((h - ray.O.z) / ray.D.z : ℚ), ⟨0, 0, 1⟩⟩ := by
  unfold planeIntersect
  rw [if_neg hd, if_pos ht]

/-- A plane that is not in front of the ray origin is missed. -/
theorem planeIntersect_behind (h : ℚ) (ray : Ray) (ht : ¬ 0 < (h - ray.O.z) / ray.D.z) :
    planeIntersect h ray = ⟨⊤, Triple.zero⟩ := by
  unfold planeIntersect
  by_cases hd : ray.D.z = 0
  · rw [if_pos hd]
  · rw [if_neg hd, if_neg ht]

/-- The primary ray meets the plane `z = 0` at distance `1 / 2`. -/
theorem ex_plane_down_hit :
    planeIntersect 0 exRay = ⟨((1 / 2 : ℚ) : WithTop ℚ), ⟨0, 0, 1⟩⟩ := by
  rw [planeIntersect_hit _ _ (by norm_num [exRay]) (by norm_num [exRay])]
  norm_num [exRay]

/-- The primary ray misses the planes at height `1` and above. -/
theorem ex_plane_down_miss (h : ℚ) (hh : 1 ≤ h) :
    planeIntersect h exRay = ⟨⊤, Triple.zero⟩ := by
  apply planeIntersect_behind
  have e : (h - exRay.O.z) / exRay.D.z = 1 / 2 - h := by
    show (h - 1 / 2) / (-1 : ℚ) = 1 / 2 - h
    ring
  rw [e]
  linarith

/-- The shadow ray misses the plane `z = 0`. -/
theorem ex_plane_up_miss :
    planeIntersect 0 ⟨⟨0, 0, 1 / 1000⟩, ⟨0, 0, 1⟩⟩ = ⟨⊤, Triple.zero⟩ :=
  planeIntersect_behind _ _ (by norm_num)

/-- The shadow ray meets the planes at height `1` and above. -/
theorem ex_plane_up_hit (h : ℚ) (hh : 1 ≤ h) :
    planeIntersect h ⟨⟨0, 0, 1 / 1000⟩, ⟨0, 0, 1⟩⟩
      = ⟨((h - 1 / 1000 : ℚ) : WithTop ℚ), ⟨0, 0, 1⟩⟩ := by
  have e : (h - (⟨⟨0, 0, 1 / 1000⟩, ⟨0, 0, 1⟩⟩ : Ray).O.z) / (⟨⟨0, 0, 1 / 1000⟩, ⟨0, 0, 1⟩⟩ : Ray).D.z
      = h - 1 / 1000 := by
    show (h - 1 / 1000) / (1 : ℚ) = h - 1 / 1000
    ring
  rw [planeIntersect_hit _ _ (by norm_num) (by rw [e]; linarith), e]

/-- The primary ray hits the lower face of the two-faced object. -/
theorem ex_castRay_slab (tr : Bool) :
    (exSlabScene tr).castRay exRay = (some (exSlab tr), ⟨((1 / 2 : ℚ) : WithTop ℚ), ⟨0, 0, 1⟩⟩) := by
  have c1 : ((1 / 2 : ℚ) : WithTop ℚ) < ⊤ := WithTop.coe_lt_top _
  have c2 : ¬ (⊤ : WithTop ℚ) < ((1 / 2 : ℚ) : WithTop ℚ) := not_top_lt
  simp only [Scene.castRay, exSlabScene, List.foldl, castRayStep, exSlab, slabIntersect,
    ex_plane_down_hit, ex_plane_down_miss 1 le_rfl, c1, c2, if_true, if_false]

/-- The shadow ray hits the upper face of the two-faced object. -/
theorem ex_castRay_slab_up (tr : Bool) :
    (exSlabScene tr).castRay ⟨⟨0, 0, 1 / 1000⟩, ⟨0, 0, 1⟩⟩
      = (some (exSlab tr), ⟨((999 / 1000 : ℚ) : WithTop ℚ), ⟨0, 0, 1⟩⟩) := by
  have e : ((1 : ℚ) - 1 / 1000) = 999 / 1000 := by norm_num
  have h1 := ex_plane_up_hit 1 le_rfl
  rw [e] at h1
  have c1 : ((999 / 1000 : ℚ) : WithTop ℚ) < ⊤ := WithTop.coe_lt_top _
  simp only [Scene.castRay, exSlabScene, List.foldl, castRayStep, exSlab, slabIntersect,
    ex_plane_up_miss, h1, c1, if_true]

/-- The primary ray hits the floor of the pane scene. -/
theorem ex_castRay_pane :
    exPaneScene.castRay exRay = (some (exPlane 0 false), ⟨((1 / 2 : ℚ) : WithTop ℚ), ⟨0, 0, 1⟩⟩) := by
  have c1 : ((1 / 2 : ℚ) : WithTop ℚ) < ⊤ := WithTop.coe_lt_top _
  have c2 : ¬ (⊤ : WithTop ℚ) < ((1 / 2 : ℚ) : WithTop ℚ) := not_top_lt
  simp only [Scene.castRay, exPaneScene, List.foldl, castRayStep, exPlane,
    ex_plane_down_hit, ex_plane_down_miss 1 le_rfl, ex_plane_down_miss 2 (by norm_num),
    c1, c2, if_true, if_false]

/-- The shadow ray of the pane scene hits the transparent pane first. -/
theorem ex_castRay_pane_up :
    exPaneScene.castRay ⟨⟨0, 0, 1 / 1000⟩, ⟨0, 0, 1⟩⟩
      = (some (exPlane 1 true), ⟨((999 / 1000 : ℚ) : WithTop ℚ), ⟨0, 0, 1⟩⟩) := by
  have e1 : ((1 : ℚ) - 1 / 1000) = 999 / 1000 := by norm_num
  have e2 : ((2 : ℚ) - 1 / 1000) = 1999 / 1000 := by norm_num
  have h1 := ex_plane_up_hit 1 le_rfl
  have h2 := ex_plane_up_hit 2 (by norm_num)
  rw [e1] at h1
  rw [e2] at h2
  have c1 : ((999 / 1000 : ℚ) : WithTop ℚ) < ⊤ := WithTop.coe_lt_top _
  have c2 : ¬ ((1999 / 1000 : ℚ) : WithTop ℚ) < ((999 / 1000 : ℚ) : WithTop ℚ) := by
    rw [WithTop.coe_lt_coe]; norm_num
  simp only [Scene.castRay, exPaneScene, List.foldl, castRayStep, exPlane,
    ex_plane_up_miss, h1, h2, lt_irrefl, c1, c2, if_true, if_false]

/-- The surface data of the examples. -/
theorem ex_surfaceOf (o : Object) (tr : Bool) (hm : o.material = exMaterial tr) :
    surfaceOf exRay o ⟨((1 / 2 : ℚ) : WithTop ℚ), ⟨0, 0, 1⟩⟩ = exSurface tr := by
  simp [surfaceOf, exSurface, exRay, Ray.pointAt, shadingNormal, matColor, hm, exMaterial]

/-- Points of the shadow ray of the examples. -/
theorem ex_pointAt_up (t : ℚ) :
    (⟨⟨0, 0, 1 / 1000⟩, ⟨0, 0, 1⟩⟩ : Ray).pointAt (t : WithTop ℚ) = ⟨0, 0, 1 / 1000 + t⟩ := by
  simp [Ray.pointAt]

/-- The floor of the pane scene is not in shadow. -/
theorem ex_inShadow_pane :
    inShadow exPrims exPaneScene (exSurface false) ⟨0, 0, 3⟩ ⟨0, 0, 1⟩ = false := by
  have hres : exPaneScene.castRay (shadowRay exPrims (exSurface false) ⟨0, 0, 1⟩)
      = (some (exPlane 1 true), ⟨((999 / 1000 : ℚ) : WithTop ℚ), ⟨0, 0, 1⟩⟩) := by
    rw [ex_shadowRay]; exact ex_castRay_pane_up
  rw [inShadow_of_castRay _ _ _ _ _ _ _ hres, ex_shadowRay]
  have hhit : (exSurface false).hit = ⟨0, 0, 0⟩ := rfl
  have hm : (exPlane 1 true).material.isTransparent = true := rfl
  simp only [ex_pointAt_up, hhit, hm]
  norm_num

/-- The direction to a light straight above the hit point. -/
theorem ex_normalized_up (tr : Bool) (h : ℚ) (hh : 0 < h) :
    exPrims.normalized ((⟨0, 0, h⟩ : Vector) - (exSurface tr).hit) = ⟨0, 0, 1⟩ := by
  have hhit : (exSurface tr).hit = ⟨0, 0, 0⟩ := rfl
  have hn : exPrims.normalized = exNormalized := rfl
  rw [hhit, hn]
  simp [exNormalized, abs_of_pos hh, hh.ne']

/-- The unoccluded contribution of the light of the examples. -/
theorem ex_lit (sc : Scene) (tr : Bool) (h : ℚ) (hh : 0 < h)
    (hs : inShadow exPrims sc (exSurface tr) ⟨0, 0, h⟩ ⟨0, 0, 1⟩ = false) :
    sampleTerm exPrims sc (exSurface tr) (exLight h) ⟨0, 0, h⟩ = ⟨1 / 2, 0, 0⟩ := by
  unfold sampleTerm
  rw [ex_normalized_up tr h hh]
  simp only [hs]
  have h1 : (exSurface tr).shadingN = ⟨0, 0, 1⟩ := rfl
  have h2 : (exSurface tr).V = ⟨0, 0, 1⟩ := rfl
  have h3 : (exSurface tr).matColor = ⟨1, 0, 0⟩ := rfl
  have h4 : (exSurface tr).material.kd = 1 / 2 := rfl
  have h5 : (exSurface tr).material.ks = 0 := rfl
  have h6 : (exSurface tr).material.n = 1 := rfl
  have h7 : (exLight h).color = ⟨1, 1, 1⟩ := rfl
  have h8 : exPrims.reflect = exReflect := rfl
  have h9 : exPrims.pow = exPow := rfl
  rw [h1, h2, h3, h4, h5, h6, h7, h8, h9]
  norm_num [exReflect, exPow]

/-- The ambient term of the examples. -/
theorem ex_ambient (tr : Bool) (c : Color) :
    (exSurface tr).material.ka • (exSurface tr).matColor + c = (⟨1 / 5, 0, 0⟩ : Color) + c := by
  have h3 : (exSurface tr).matColor = ⟨1, 0, 0⟩ := rfl
  have h4 : (exSurface tr).material.ka = 1 / 5 := rfl
  rw [h3, h4]
  norm_num

/-- The colour traced in the pane scene. -/
theorem ex_trace_pane :
    trace exPrims exPaneScene 0 exRay 0 = (⟨7 / 10, 0, 0⟩, 0) := by
  have hl : exPaneScene.lights = [exLight 3] := rfl
  have hh : exPaneScene.shadowType = ShadowType.HARD := rfl
  have hp : (exLight 3).position = ⟨0, 0, 3⟩ := rfl
  rw [trace_zero_hit _ _ _ _ _ _ ex_castRay_pane, ex_surfaceOf _ false rfl,
    hard_localColor_one _ _ _ (exLight 3) _ hh hl, hp, ex_ambient,
    ex_lit _ _ 3 (by norm_num) ex_inShadow_pane]
  norm_num

/-- A horizontal ray misses every plane of the pane scene. -/
theorem ex_miss : ∀ o ∈ exPaneScene.objects,
    (o.intersect ⟨⟨0, 0, 1 / 2⟩, ⟨1, 0, 0⟩⟩).t = ⊤ := by
  intro o ho
  simp only [exPaneScene, List.mem_cons, List.mem_singleton, List.not_mem_nil, or_false] at ho
  rcases ho with h | h | h <;> subst h <;> simp [exPlane, planeIntersect]

/-- A scene with one object returns it for every ray it is hit by. -/
theorem castRay_single (sc : Scene) (o : Object) (ray : Ray) (ho : sc.objects = [o])
    (ht : (o.intersect ray).t < ⊤) : sc.castRay ray = (some o, o.intersect ray) := by
  unfold Scene.castRay
  rw [ho, List.foldl_cons, List.foldl_nil]
  unfold castRayStep
  exact if_pos ht

/-- Hit point, view vector and shading normal for the primary ray of the
examples hitting a face `z = 0` of any object. -/
theorem ex_surface_geometry (o : Object) :
    (surfaceOf exRay o ⟨((1 / 2 : ℚ) : WithTop ℚ), ⟨0, 0, 1⟩⟩).hit = ⟨0, 0, 0⟩ ∧
    (surfaceOf exRay o ⟨((1 / 2 : ℚ) : WithTop ℚ), ⟨0, 0, 1⟩⟩).V = ⟨0, 0, 1⟩ ∧
    (surfaceOf exRay o ⟨((1 / 2 : ℚ) : WithTop ℚ), ⟨0, 0, 1⟩⟩).shadingN = ⟨0, 0, 1⟩ := by
  refine ⟨?_, ?_, ?_⟩
  · simp [surfaceOf, exRay, Ray.pointAt]
  · simp [surfaceOf, exRay]
  · simp [surfaceOf, exRay, shadingNormal]

/-- The third coordinate of every sample position is that of the light. -/
theorem cellPos_z (P : Prims) (sc : Scene) (light : Light) (x y g : Nat) :
    (cellPos P sc light x y g).z = light.position.z := by
  simp [cellPos, samplePos, subLightPos]

/-- The normalisation of the examples keeps the sign of the third component. -/
theorem exNormalized_z_pos (v : Vector) (hz : 0 < v.z) : 0 < (exNormalized v).z := by
  have h : (exNormalized v).z = v.z / (|v.x| + |v.y| + |v.z|) := rfl
  rw [h]
  apply div_pos hz
  have h1 := abs_nonneg v.x
  have h2 := abs_nonneg v.y
  have h3 : 0 < |v.z| := abs_pos.2 hz.ne'
  linarith

/-- In a scene whose only object is a floor `z = 0`, the shadow ray from the
origin of the floor towards a point above the floor meets no object. -/
theorem ex_floor_shadow_miss (sc : Scene) (o : Object) (ho : sc.objects = [o])
    (hi : o.intersect = planeIntersect 0) (s : Surface) (h1 : s.hit = ⟨0, 0, 0⟩)
    (h3 : s.shadingN = ⟨0, 0, 1⟩) (pos : Vector) (hz : 0 < pos.z) :
    sc.castRay (shadowRay exPrims s (exPrims.normalized (pos - s.hit)))
      = (none, ⟨⊤, Triple.zero⟩) := by
  have hL : 0 < (exPrims.normalized (pos - s.hit)).z := by
    apply exNormalized_z_pos
    rw [h1]
    show 0 < pos.z - 0
    linarith
  apply castRay_miss
  intro o' ho'
  rw [ho] at ho'
  have e : o' = o := by simpa using ho'
  rw [e, hi, planeIntersect_behind]
  have e1 : (shadowRay exPrims s (exPrims.normalized (pos - s.hit))).O.z = 1 / 1000 := by
    simp [shadowRay, h1, h3, exPrims]
  have e2 : (shadowRay exPrims s (exPrims.normalized (pos - s.hit))).D.z
      = (exPrims.normalized (pos - s.hit)).z := rfl
  rw [e1, e2]
  intro h
  have : (0 - 1 / 1000 : ℚ) / (exPrims.normalized (pos - s.hit)).z < 0 :=
    div_neg_of_neg_of_pos (by norm_num) hL
  linarith

/-- The primary ray hits the floor of the grid scene. -/
theorem ex_castRay_grid (n : Int) :
    (exGridScene n).castRay exRay
      = (some exGlossFloor, ⟨((1 / 2 : ℚ) : WithTop ℚ), ⟨0, 0, 1⟩⟩) := by
  have h := castRay_single (exGridScene n) exGlossFloor exRay rfl
    (by
      show (planeIntersect 0 exRay).t < ⊤
      rw [ex_plane_down_hit]
      exact WithTop.coe_lt_top _)
  rw [h]
  show (some exGlossFloor, planeIntersect 0 exRay) = _
  rw [ex_plane_down_hit]

/-- The surface data at the floor of the grid scene. -/
theorem ex_gloss_surfaceOf :
    surfaceOf exRay exGlossFloor ⟨((1 / 2 : ℚ) : WithTop ℚ), ⟨0, 0, 1⟩⟩ = exGlossSurface := by
  simp [surfaceOf, exGlossSurface, exRay, Ray.pointAt, shadingNormal, matColor, exGlossFloor,
    exGlossMaterial]

/-- Every sample above the floor of the grid scene is unoccluded and
contributes `ks × lightColor`. -/
theorem ex_gloss_sample (n : Int) (light : Light) (hc : light.color = ⟨1, 1, 1⟩) (pos : Vector)
    (hz : 0 < pos.z) :
    sampleTerm exPrims (exGridScene n) exGlossSurface light pos = ⟨1 / 4, 1 / 4, 1 / 4⟩ := by
  have hsh := inShadow_of_castRay_none exPrims (exGridScene n) exGlossSurface pos _
    (by rw [ex_floor_shadow_miss (exGridScene n) exGlossFloor rfl rfl exGlossSurface rfl rfl
      pos hz])
  rw [sampleTerm_of_lit _ _ _ _ _ hsh]
  unfold diffuseTerm specularTerm
  have hkd : exGlossSurface.material.kd = 0 := rfl
  have hks : exGlossSurface.material.ks = 1 / 4 := rfl
  have hn : exGlossSurface.material.n = 0 := rfl
  have hp : ∀ b : ℚ, exPrims.pow b 0 = 1 := by
    intro b
    show b ^ ⌊(0 : ℚ)⌋.toNat = 1
    simp
  have hmc : exGlossSurface.matColor = ⟨1, 0, 0⟩ := rfl
  simp only [hkd, hks, hn, hp, hc, hmc, mul_zero, zero_smul, one_mul, Triple.zero_def,
    Triple.mk_mul_mk, Triple.smul_mk, Triple.mk_add_mk]
  norm_num

/-- The sum of `n` copies of a colour, by components. -/
theorem Triple.nsmul_mk (n : Nat) (a b c : ℚ) :
    n • (⟨a, b, c⟩ : Triple) = ⟨n * a, n * b, n * c⟩ := by
  rw [← Nat.cast_smul_eq_nsmul ℚ n]
  rfl

/-- Every sample of the light of the grid scene contributes the same colour. -/
theorem ex_grid_sample (n : Int) (x y g : Nat) :
    sampleTerm exPrims (exGridScene n)
        (surfaceOf exRay exGlossFloor ⟨((1 / 2 : ℚ) : WithTop ℚ), ⟨0, 0, 1⟩⟩) (exGridLight n)
        (cellPos exPrims (exGridScene n) (exGridLight n) x y g)
      = ⟨1 / 4, 1 / 4, 1 / 4⟩ := by
  rw [ex_gloss_surfaceOf]
  apply ex_gloss_sample n (exGridLight n) rfl
  rw [cellPos_z]
  show (0 : ℚ) < 2
  norm_num

/-- The cell counts used in the grid scene are those of the light. -/
theorem ex_grid_cells (n : Int) :
    cellsOf (exGridScene n) (exGridLight n).cells_x = n ∧
    cellsOf (exGridScene n) (exGridLight n).cells_y = n := by
  constructor <;> simp [cellsOf, exGridScene, exGridLight, Light.create]

/-! ## Claims -/

/-- C1: if `castRay` returns an object, that object sits at some index `i` of
the object list, the returned hit is the hit of that object, its distance is
at most the hit distance of every scene object, and every object whose hit
distance ties with it sits at an index `j ≥ i` (the returned object is the
earliest of the nearest ones in insertion order). -/
theorem castRay_nearest_first (sc : Scene) (ray : Ray) (obj : Object) (min_hit : Hit)
    (hres : sc.castRay ray = (some obj, min_hit)) :
    ∃ i : Nat, sc.objects[i]? = some obj ∧ min_hit = obj.intersect ray ∧
      (∀ o ∈ sc.objects, min_hit.t ≤ (o.intersect ray).t) ∧
      (∀ (j : Nat) (o : Object), sc.objects[j]? = some o →
        (o.intersect ray).t = min_hit.t → i ≤ j) := by
  rcases castRay_scanInv sc ray with ⟨h1, _, _⟩ | ⟨i, o, h1, h2, h3, _, h5, h6⟩
  · rw [hres] at h1; exact absurd h1 (by simp)
  · rw [hres] at h1 h3 h5 h6
    have ho : obj = o := Option.some.inj h1
    subst ho
    refine ⟨i, h2, h3, h5, ?_⟩
    intro j o' hj heq
    by_contra hlt
    have := h6 j o' (not_le.1 hlt) hj
    rw [heq] at this
    exact lt_irrefl _ this

/-- Witness for C1: the shadow ray of the pane scene, for which the pane at
index 1 is returned. -/
theorem castRay_nearest_first_witness :
    exPaneScene.castRay ⟨⟨0, 0, 1 / 1000⟩, ⟨0, 0, 1⟩⟩
        = (some (exPlane 1 true), ⟨((999 / 1000 : ℚ) : WithTop ℚ), ⟨0, 0, 1⟩⟩) ∧
      ∃ i : Nat, exPaneScene.objects[i]? = some (exPlane 1 true) ∧
        (⟨((999 / 1000 : ℚ) : WithTop ℚ), ⟨0, 0, 1⟩⟩ : Hit)
          = (exPlane 1 true).intersect ⟨⟨0, 0, 1 / 1000⟩, ⟨0, 0, 1⟩⟩ ∧
        (∀ o ∈ exPaneScene.objects,
          (⟨((999 / 1000 : ℚ) : WithTop ℚ), ⟨0, 0, 1⟩⟩ : Hit).t
            ≤ (o.intersect ⟨⟨0, 0, 1 / 1000⟩, ⟨0, 0, 1⟩⟩).t) ∧
        (∀ (j : Nat) (o : Object), exPaneScene.objects[j]? = some o →
          (o.intersect ⟨⟨0, 0, 1 / 1000⟩, ⟨0, 0, 1⟩⟩).t
            = (⟨((999 / 1000 : ℚ) : WithTop ℚ), ⟨0, 0, 1⟩⟩ : Hit).t → i ≤ j) :=
  ⟨ex_castRay_pane_up, castRay_nearest_first exPaneScene _ _ _ ex_castRay_pane_up⟩

/-- C2: `castRay` returns no object if and only if no scene object reports a
hit distance below `+infinity`; in that case the returned hit distance is
`+infinity`; an empty object list returns no object. -/
theorem castRay_none_iff (sc : Scene) (ray : Ray) :
    ((sc.castRay ray).1 = none ↔ ∀ o ∈ sc.objects, ¬ (o.intersect ray).t < ⊤) ∧
    ((sc.castRay ray).1 = none → (sc.castRay ray).2.t = ⊤) ∧
    (sc.objects = [] → (sc.castRay ray).1 = none) := by
  have key : (sc.castRay ray).1 = none ↔ ∀ o ∈ sc.objects, ¬ (o.intersect ray).t < ⊤ := by
    rcases castRay_scanInv sc ray with ⟨h1, _, h3⟩ | ⟨i, o, h1, h2, h3, h4, _, _⟩
    · exact ⟨fun _ o ho => by rw [h3 o ho]; exact lt_irrefl _, fun _ => h1⟩
    · constructor
      · intro h; rw [h] at h1; exact absurd h1 (by simp)
      · intro h
        rw [h3] at h4
        exact absurd h4 (h o (List.getElem?_mem h2))
  refine ⟨key, ?_, ?_⟩
  · intro h
    rcases castRay_scanInv sc ray with ⟨_, h2, _⟩ | ⟨i, o, h1, _⟩
    · rw [h2]
    · rw [h] at h1; exact absurd h1 (by simp)
  · intro h
    rw [key, h]
    intro o ho
    exact absurd ho (List.not_mem_nil o)

/-- C3: for a ray that every scene object reports at `+infinity` (in
particular in a scene without objects), `trace` returns black at every depth,
for all lights, and makes no random draw. -/
theorem trace_miss_black (P : Prims) (sc : Scene) (ray : Ray) (d g : Nat)
    (hmiss : ∀ o ∈ sc.objects, (o.intersect ray).t = ⊤) :
    trace P sc d ray g = (⟨0, 0, 0⟩, g) := by
  cases d <;> simp [trace, traceBody, castRay_miss sc ray hmiss]

/-- Witness for C3: a horizontal ray between the planes of the pane scene. -/
theorem trace_miss_black_witness :
    (∀ o ∈ exPaneScene.objects, (o.intersect ⟨⟨0, 0, 1 / 2⟩, ⟨1, 0, 0⟩⟩).t = ⊤) ∧
      trace exPrims exPaneScene 3 ⟨⟨0, 0, 1 / 2⟩, ⟨1, 0, 0⟩⟩ 0 = (⟨0, 0, 0⟩, 0) :=
  ⟨ex_miss, trace_miss_black exPrims exPaneScene _ 3 0 ex_miss⟩

/-- Counterexample to C5: in the pane scene an opaque wall meets the shadow ray
at squared distance `4`, below the squared distance `9` to the light sample,
yet the sample contributes `(1 / 2, 0, 0)` and the traced colour is not the
ambient term `(1 / 5, 0, 0)`, because the nearest object on the shadow ray is
a transparent pane. -/
theorem opaque_wall_behind_pane_does_not_block :
    exPlane 2 false ∈ exPaneScene.objects ∧
    (exPlane 2 false).material.isTransparent = false ∧
    surfaceOf exRay (exPlane 0 false) ⟨((1 / 2 : ℚ) : WithTop ℚ), ⟨0, 0, 1⟩⟩ = exSurface false ∧
    exPrims.normalized ((exLight 3).position - (exSurface false).hit) = ⟨0, 0, 1⟩ ∧
    ((exPlane 2 false).intersect (shadowRay exPrims (exSurface false) ⟨0, 0, 1⟩)).t
      = ((1999 / 1000 : ℚ) : WithTop ℚ) ∧
    (((shadowRay exPrims (exSurface false) ⟨0, 0, 1⟩).pointAt ((1999 / 1000 : ℚ) : WithTop ℚ))
        - (exSurface false).hit).length_2 = 4 ∧
    ((exLight 3).position - (exSurface false).hit).length_2 = 9 ∧
    sampleTerm exPrims exPaneScene (exSurface false) (exLight 3) (exLight 3).position
      = ⟨1 / 2, 0, 0⟩ ∧
    (exSurface false).material.ka • (exSurface false).matColor = (⟨1 / 5, 0, 0⟩ : Color) ∧
    trace exPrims exPaneScene 0 exRay 0 = (⟨7 / 10, 0, 0⟩, 0) := by
  have hp : (exLight 3).position = ⟨0, 0, 3⟩ := rfl
  have hhit : (exSurface false).hit = ⟨0, 0, 0⟩ := rfl
  refine ⟨by simp [exPaneScene], rfl, ex_surfaceOf _ false rfl, ?_, ?_, ?_, ?_, ?_, ?_,
    ex_trace_pane⟩
  · rw [hp]; exact ex_normalized_up false 3 (by norm_num)
  · rw [ex_shadowRay]
    norm_num [exPlane, planeIntersect]
  · rw [ex_shadowRay, ex_pointAt_up, hhit]
    norm_num
  · rw [hp, hhit]
    norm_num
  · rw [hp]
    exact ex_lit _ _ 3 (by norm_num) ex_inShadow_pane
  · have h := ex_ambient false 0
    rw [add_zero, add_zero] at h
    exact h

/-- C5, amended: when the object `castRay` returns for the shadow ray of a
light sample is opaque and its hit is at a squared distance from the hit point
strictly below that of the light sample, the iteration of the cell loop leaves
the accumulated colour unchanged: the sample contributes nothing. -/
theorem nearest_opaque_occluder_blocks (P : Prims) (sc : Scene) (s : Surface) (light : Light)
    (cells_x cells_y : Int) (x y : Nat) (acc : Color × Nat) (o : Object) (h : Hit)
    (hres : sc.castRay (shadowRay P s
        (P.normalized ((samplePos P sc light cells_x cells_y x y acc.2).1 - s.hit))) = (some o, h))
    (hop : o.material.isTransparent = false)
    (hlt : (((shadowRay P s
          (P.normalized ((samplePos P sc light cells_x cells_y x y acc.2).1 - s.hit))).pointAt h.t)
        - s.hit).length_2
      < ((samplePos P sc light cells_x cells_y x y acc.2).1 - s.hit).length_2) :
    (cellStep P sc s light cells_x cells_y x y acc).1 = acc.1 ∧
    sampleTerm P sc s light (samplePos P sc light cells_x cells_y x y acc.2).1 = 0 := by
  have hs : inShadow P sc s (samplePos P sc light cells_x cells_y x y acc.2).1
      (P.normalized ((samplePos P sc light cells_x cells_y x y acc.2).1 - s.hit)) = true := by
    rw [inShadow_of_castRay P sc s _ _ o h hres, if_neg (not_le.2 hlt), hop]
    rfl
  have h0 := sampleTerm_of_dark P sc s light _ hs
  refine ⟨?_, h0⟩
  rw [cellStep_eq, h0, add_zero]

/-- Witness for C5, amended: the opaque two-faced object shadows its lower
face. -/
theorem nearest_opaque_occluder_blocks_witness :
    (cellStep exPrims (exSlabScene false) (exSurface false) (exLight 2) 1 1 0 0
      ((⟨1, 1, 1⟩ : Color), 0)).1 = ⟨1, 1, 1⟩ := by
  have hsp : (samplePos exPrims (exSlabScene false) (exLight 2) 1 1 0 0 0).1 = ⟨0, 0, 2⟩ := by
    have := hard_samplePos exPrims (exSlabScene false) (exLight 2) 0 rfl
    exact congrArg Prod.fst this
  have hn := ex_normalized_up false 2 (by norm_num)
  have hhit : (exSurface false).hit = ⟨0, 0, 0⟩ := rfl
  refine (nearest_opaque_occluder_blocks exPrims (exSlabScene false) (exSurface false)
    (exLight 2) 1 1 0 0 ((⟨1, 1, 1⟩ : Color), 0) (exSlab false)
    ⟨((999 / 1000 : ℚ) : WithTop ℚ), ⟨0, 0, 1⟩⟩ ?_ rfl ?_).1
  · show (exSlabScene false).castRay (shadowRay exPrims (exSurface false)
        (exPrims.normalized ((samplePos exPrims (exSlabScene false) (exLight 2) 1 1 0 0 0).1
          - (exSurface false).hit))) = _
    rw [hsp, hn, ex_shadowRay]
    exact ex_castRay_slab_up false
  · show (((shadowRay exPrims (exSurface false)
        (exPrims.normalized ((samplePos exPrims (exSlabScene false) (exLight 2) 1 1 0 0 0).1
          - (exSurface false).hit))).pointAt ((999 / 1000 : ℚ) : WithTop ℚ))
        - (exSurface false).hit).length_2
      < ((samplePos exPrims (exSlabScene false) (exLight 2) 1 1 0 0 0).1
          - (exSurface false).hit).length_2
    rw [hsp, hn, ex_shadowRay, ex_pointAt_up, hhit]
    norm_num

/-- C6: a light sample is flagged as in shadow if and only if `castRay` on the
shadow ray returns an object, the squared distance from the hit point to that
shadow hit is strictly below the squared distance to the light sample, and the
material of that object is not transparent; when the returned object is
transparent the sample adds its diffuse and specular terms, exactly what it
adds when `castRay` returns no object. -/
theorem inShadow_iff (P : Prims) (sc : Scene) (s : Surface) (light : Light) (pos L : Vector)
    (c : Color) :
    (inShadow P sc s pos L = true ↔
      ∃ (o : Object) (h : Hit), sc.castRay (shadowRay P s L) = (some o, h) ∧
        (((shadowRay P s L).pointAt h.t) - s.hit).length_2 < (pos - s.hit).length_2 ∧
        o.material.isTransparent = false) ∧
    (∀ (o : Object) (h : Hit),
      sc.castRay (shadowRay P s (P.normalized (pos - s.hit))) = (some o, h) →
      o.material.isTransparent = true →
      addSample P sc s light pos c
        = c + (((max (s.shadingN.dot (P.normalized (pos - s.hit))) 0 * s.material.kd)
                  • light.color) * s.matColor
            + (P.pow (max ((P.reflect (-(P.normalized (pos - s.hit))) s.shadingN).dot s.V) 0)
                  s.material.n * s.material.ks) • light.color)) ∧
    ((sc.castRay (shadowRay P s (P.normalized (pos - s.hit)))).1 = none →
      addSample P sc s light pos c
        = c + (((max (s.shadingN.dot (P.normalized (pos - s.hit))) 0 * s.material.kd)
                  • light.color) * s.matColor
            + (P.pow (max ((P.reflect (-(P.normalized (pos - s.hit))) s.shadingN).dot s.V) 0)
                  s.material.n * s.material.ks) • light.color)) := by
  refine ⟨?_, ?_, ?_⟩
  · constructor
    · intro hin
      rcases hc : sc.castRay (shadowRay P s L) with ⟨_ | o, h⟩
      · rw [inShadow_of_castRay_none P sc s pos L (by rw [hc])] at hin
        exact absurd hin (by simp)
      · rw [inShadow_of_castRay P sc s pos L o h hc] at hin
        refine ⟨o, h, rfl, ?_, ?_⟩
        · by_contra hle
          rw [if_pos (not_lt.1 hle)] at hin
          exact absurd hin (by simp)
        · cases ht : o.material.isTransparent
          · rfl
          · rw [ht] at hin
            simp at hin
    · rintro ⟨o, h, hc, hlt, hop⟩
      rw [inShadow_of_castRay P sc s pos L o h hc, if_neg (not_le.2 hlt), hop]
      rfl
  · intro o h hc ht
    have hs : inShadow P sc s pos (P.normalized (pos - s.hit)) = false := by
      rw [inShadow_of_castRay P sc s pos _ o h hc, ht]
      simp
    rw [addSample_eq]
    unfold sampleTerm
    simp [hs]
  · intro hc
    have hs := inShadow_of_castRay_none P sc s pos _ hc
    rw [addSample_eq]
    unfold sampleTerm
    simp [hs]

/-- When every sampled cell of a light contributes the same colour `c`, the
sum over the cells is `c` times the number of cells sampled. -/
theorem lightSum_const (P : Prims) (sc : Scene) (s : Surface) (light : Light) (g : Nat)
    (c : Color)
    (hc : ∀ x y, x < gridX sc light → y < gridY sc light →
      sampleTerm P sc s light (cellPos P sc light x y g) = c) :
    lightSum P sc s light g = (gridX sc light * gridY sc light) • c := by
  unfold lightSum
  rw [sum_map_congr_range (gridX sc light) _ (fun _ => gridY sc light • c)
    (fun x hx' => by
      rw [sum_map_congr_range (gridY sc light) _ (fun _ => c) (fun y hy' => hc x y hx' hy'),
        sum_map_const_range]),
    sum_map_const_range, mul_smul]

/-- For a light with `cells_x ≥ 1` and `cells_y ≥ 1` whose product of cell
counts fits in an `int`, one iteration of the light loop adds the sum of the
per-cell sample contributions divided by the number of cells sampled, which is
`cells_x × cells_y`, or `1` in `HARD` mode; hence if every sampled cell
contributes the same colour `c`, the light adds exactly `c`. -/
theorem lightStep_average_in_range (P : Prims) (sc : Scene) (s : Surface) (acc : Color × Nat)
    (light : Light) (hx : 1 ≤ light.cells_x) (hy : 1 ≤ light.cells_y)
    (hfit : cellsOf sc light.cells_x * cellsOf sc light.cells_y < 2147483648) :
    (lightStep P sc s acc light).1
        = acc.1 + (((List.range (gridX sc light)).map fun x =>
            ((List.range (gridY sc light)).map fun y =>
              sampleTerm P sc s light (cellPos P sc light x y acc.2)).sum).sum)
            / ((gridX sc light * gridY sc light : Nat) : ℚ) ∧
    ((gridX sc light : Int) * (gridY sc light : Int)
        = if sc.shadowType = ShadowType.HARD then 1 else light.cells_x * light.cells_y) ∧
    ∀ c : Color,
      (∀ x y, x < gridX sc light → y < gridY sc light →
        sampleTerm P sc s light (cellPos P sc light x y acc.2) = c) →
      (lightStep P sc s acc light).1 = acc.1 + c := by
  have hstep : (lightStep P sc s acc light).1
      = acc.1 + lightSum P sc s light acc.2 / ((gridX sc light * gridY sc light : Nat) : ℚ) := by
    rw [lightStep_eq]
    show acc.1 + lightAverage P sc s light acc.2 = _
    unfold lightAverage
    rw [numCells_cast sc light hx hy hfit]
  refine ⟨hstep, ?_, ?_⟩
  · unfold gridX gridY cellsOf
    split
    · rfl
    · rw [Int.toNat_of_nonneg (by omega), Int.toNat_of_nonneg (by omega)]
  · intro c hc
    rw [hstep, lightSum_const P sc s light acc.2 c hc,
      Triple.nsmul_div_self _ (grid_pos sc light hx hy)]

/-- C7 at a failing input: a light with a grid of `46341` by `46341` cells
(both counts at least `1`) under banded soft shadows, above a floor on which
each of its `2147488281` samples contributes the same colour
`c = (1/4, 1/4, 1/4)`.  The `int` product of the cell counts is
`-2147479015`, so one iteration of the light loop adds the sum of the
contributions divided by `-2147479015`, not by the number of cells sampled:
the light adds a negative colour and not `c`, and the traced colour has a
negative channel. -/
theorem cell_product_overflow_average :
    (1 : Int) ≤ (exGridLight 46341).cells_x ∧ (1 : Int) ≤ (exGridLight 46341).cells_y ∧
    (exGridScene 46341).shadowType = ShadowType.SOFT_BANDING ∧
    (exGridScene 46341).castRay exRay
      = (some exGlossFloor, ⟨((1 / 2 : ℚ) : WithTop ℚ), ⟨0, 0, 1⟩⟩) ∧
    gridX (exGridScene 46341) (exGridLight 46341)
        * gridY (exGridScene 46341) (exGridLight 46341) = 2147488281 ∧
    (∀ x y g : Nat,
      sampleTerm exPrims (exGridScene 46341)
          (surfaceOf exRay exGlossFloor ⟨((1 / 2 : ℚ) : WithTop ℚ), ⟨0, 0, 1⟩⟩)
          (exGridLight 46341)
          (cellPos exPrims (exGridScene 46341) (exGridLight 46341) x y g)
        = ⟨1 / 4, 1 / 4, 1 / 4⟩) ∧
    (∀ acc : Color × Nat,
      (lightStep exPrims (exGridScene 46341)
          (surfaceOf exRay exGlossFloor ⟨((1 / 2 : ℚ) : WithTop ℚ), ⟨0, 0, 1⟩⟩) acc
          (exGridLight 46341)).1
        = acc.1 + ((2147488281 : Nat) • (⟨1 / 4, 1 / 4, 1 / 4⟩ : Color))
            / ((-2147479015 : Int) : ℚ)) ∧
    (∀ acc : Color × Nat,
      (lightStep exPrims (exGridScene 46341)
          (surfaceOf exRay exGlossFloor ⟨((1 / 2 : ℚ) : WithTop ℚ), ⟨0, 0, 1⟩⟩) acc
          (exGridLight 46341)).1
        ≠ acc.1 + (⟨1 / 4, 1 / 4, 1 / 4⟩ : Color)) ∧
    (trace exPrims (exGridScene 46341) 0 exRay 0).1
      = (⟨1 / 5, 0, 0⟩ : Color) + ((2147488281 : Nat) • (⟨1 / 4, 1 / 4, 1 / 4⟩ : Color))
          / ((-2147479015 : Int) : ℚ) ∧
    (trace exPrims (exGridScene 46341) 0 exRay 0).1.x < 0 := by
  have hg : gridX (exGridScene 46341) (exGridLight 46341)
      * gridY (exGridScene 46341) (exGridLight 46341) = 2147488281 := by
    unfold gridX gridY
    rw [(ex_grid_cells 46341).1, (ex_grid_cells 46341).2]
    rfl
  have hn : numCells (exGridScene 46341) (exGridLight 46341) = -2147479015 := by
    unfold numCells
    rw [(ex_grid_cells 46341).1, (ex_grid_cells 46341).2]
    rfl
  have hstep : ∀ acc : Color × Nat,
      (lightStep exPrims (exGridScene 46341)
          (surfaceOf exRay exGlossFloor ⟨((1 / 2 : ℚ) : WithTop ℚ), ⟨0, 0, 1⟩⟩) acc
          (exGridLight 46341)).1
        = acc.1 + ((2147488281 : Nat) • (⟨1 / 4, 1 / 4, 1 / 4⟩ : Color))
            / ((-2147479015 : Int) : ℚ) := by
    intro acc
    rw [lightStep_eq]
    show acc.1 + lightAverage _ _ _ _ _ = _
    unfold lightAverage
    rw [lightSum_const _ _ _ _ _ ⟨1 / 4, 1 / 4, 1 / 4⟩
      (fun x y _ _ => ex_grid_sample 46341 x y acc.2), hg, hn]
  have htrace : (trace exPrims (exGridScene 46341) 0 exRay 0).1
      = (⟨1 / 5, 0, 0⟩ : Color) + ((2147488281 : Nat) • (⟨1 / 4, 1 / 4, 1 / 4⟩ : Color))
          / ((-2147479015 : Int) : ℚ) := by
    rw [trace_zero_hit _ _ _ _ _ _ (ex_castRay_grid 46341)]
    show (lightStep exPrims (exGridScene 46341) _ (_, 0) (exGridLight 46341)).1 = _
    rw [hstep, ex_gloss_surfaceOf]
    show ((1 / 5 : ℚ) • (⟨1, 0, 0⟩ : Color)) + _ = _
    rw [Triple.smul_mk]
    norm_num
  refine ⟨by decide, by decide, rfl, ex_castRay_grid 46341, hg,
    fun x y g => ex_grid_sample 46341 x y g, hstep, ?_, htrace, ?_⟩
  · intro acc h
    rw [hstep] at h
    have hx := congrArg Triple.x h
    rw [Triple.nsmul_mk] at hx
    simp only [Triple.add_x, Triple.div_x] at hx
    norm_num at hx
  · rw [htrace, Triple.nsmul_mk]
    simp only [Triple.add_x, Triple.div_x]
    norm_num

/-- C8: in `HARD` mode the cell loops run their body exactly once per light,
the sample position is the position of the light, and therefore `trace`
returns the same result when the lights are replaced by lights with the same
position and colour and any cell counts, width and height. -/
theorem hard_single_sample_at_position (P : Prims) (sc : Scene)
    (hh : sc.shadowType = ShadowType.HARD) :
    (∀ (s : Surface) (light : Light) (acc : Color × Nat),
      cellLoop P sc s light (cellsOf sc light.cells_x) (cellsOf sc light.cells_y) acc
        = (addSample P sc s light light.position acc.1, acc.2)) ∧
    (∀ (light : Light) (g : Nat),
      samplePos P sc light (cellsOf sc light.cells_x) (cellsOf sc light.cells_y) 0 0 g
        = (light.position, g)) ∧
    (∀ f : Light → Light, (∀ l, (f l).position = l.position ∧ (f l).color = l.color) →
      ∀ (d : Nat) (ray : Ray) (g : Nat),
        trace P (sc.mapLights f) d ray g = trace P sc d ray g) :=
  ⟨fun s light acc => hard_cellLoop P sc s light acc hh,
   fun light g => hard_samplePos P sc light g hh,
   fun f hf d => hard_trace_mapLights P sc f hh hf d⟩

/-- Witness for C8: the example scene, with the grid and the size of its light
replaced. -/
theorem hard_single_sample_at_position_witness :
    (exSlabScene true).shadowType = ShadowType.HARD ∧
    ∀ (d : Nat) (ray : Ray) (g : Nat),
      trace exPrims ((exSlabScene true).mapLights
          fun l => { l with cells_x := 7, cells_y := 5, width := 3, height := 4 }) d ray g
        = trace exPrims (exSlabScene true) d ray g :=
  ⟨rfl, (hard_single_sample_at_position exPrims (exSlabScene true) rfl).2.2
    (fun l => { l with cells_x := 7, cells_y := 5, width := 3, height := 4 })
    (fun _ => ⟨rfl, rfl⟩)⟩

/-- C9: for a light of positive width and height and a cell `(x, y)` of its
grid (`x < cells_x`, `y < cells_y`): in `SOFT_BANDING` mode the sample position
is the centre of the cell; in `SOFT_JITTERED` mode, for random draws in
`[0, 1]`, the sample position lies in the rectangle of the cell, at the height
of the light position, hence in the footprint of the light centred on its
position; the rectangle of every cell lies in that footprint. -/
theorem sample_in_cell (P : Prims) (sc : Scene) (light : Light) (x y g : Nat)
    (hw : 0 < light.width) (hh : 0 < light.height)
    (hx : (x : Int) < light.cells_x) (hy : (y : Int) < light.cells_y) :
    (sc.shadowType = ShadowType.SOFT_BANDING →
      (samplePos P sc light (cellsOf sc light.cells_x) (cellsOf sc light.cells_y) x y g).1
        = ⟨(cellLeft light x + cellRight light x) / 2,
           (cellBottom light y + cellTop light y) / 2, light.position.z⟩) ∧
    (sc.shadowType = ShadowType.SOFT_JITTERED →
      0 ≤ P.rand01 g → P.rand01 g ≤ 1 → 0 ≤ P.rand01 (g + 1) → P.rand01 (g + 1) ≤ 1 →
      (samplePos P sc light (cellsOf sc light.cells_x) (cellsOf sc light.cells_y) x y g).1
          = subLightPos light light.cells_x light.cells_y x y (P.rand01 g) (P.rand01 (g + 1)) ∧
      cellLeft light x
        ≤ (samplePos P sc light (cellsOf sc light.cells_x) (cellsOf sc light.cells_y) x y g).1.x ∧
      (samplePos P sc light (cellsOf sc light.cells_x) (cellsOf sc light.cells_y) x y g).1.x
        ≤ cellRight light x ∧
      cellBottom light y
        ≤ (samplePos P sc light (cellsOf sc light.cells_x) (cellsOf sc light.cells_y) x y g).1.y ∧
      (samplePos P sc light (cellsOf sc light.cells_x) (cellsOf sc light.cells_y) x y g).1.y
        ≤ cellTop light y ∧
      (samplePos P sc light (cellsOf sc light.cells_x) (cellsOf sc light.cells_y) x y g).1.z
        = light.position.z ∧
      light.position.x - light.width / 2
        ≤ (samplePos P sc light (cellsOf sc light.cells_x) (cellsOf sc light.cells_y) x y g).1.x ∧
      (samplePos P sc light (cellsOf sc light.cells_x) (cellsOf sc light.cells_y) x y g).1.x
        ≤ light.position.x + light.width / 2 ∧
      light.position.y - light.height / 2
        ≤ (samplePos P sc light (cellsOf sc light.cells_x) (cellsOf sc light.cells_y) x y g).1.y ∧
      (samplePos P sc light (cellsOf sc light.cells_x) (cellsOf sc light.cells_y) x y g).1.y
        ≤ light.position.y + light.height / 2) ∧
    (light.position.x - light.width / 2 ≤ cellLeft light x ∧
      cellRight light x ≤ light.position.x + light.width / 2 ∧
      light.position.y - light.height / 2 ≤ cellBottom light y ∧
      cellTop light y ≤ light.position.y + light.height / 2) := by
  have ax := axis_in_cell light.position.x light.width
  have ay := axis_in_cell light.position.y light.height
  refine ⟨?_, ?_, ?_⟩
  · intro hb
    rw [soft_samplePos P sc light x y g (by rw [hb]; decide)]
    simp only [hb, reduceCtorEq, if_false]
    unfold subLightPos cellLeft cellRight cellBottom cellTop
    ext
    · simp only [Triple.sub_x]; ring
    · simp only [Triple.sub_y]; ring
    · simp only [Triple.sub_z]; ring
  · intro hj h1 h2 h3 h4
    rw [soft_samplePos P sc light x y g (by rw [hj]; decide)]
    simp only [hj, if_true]
    have bx := ax (P.rand01 g) light.cells_x x hw hx h1 h2
    have by' := ay (P.rand01 (g + 1)) light.cells_y y hh hy h3 h4
    unfold subLightPos cellLeft cellRight cellBottom cellTop
    simp only [Triple.sub_x, Triple.sub_y, Triple.sub_z, sub_zero]
    exact ⟨trivial, bx.1, bx.2.1, by'.1, by'.2.1, trivial,
      le_trans bx.2.2.1 bx.1, le_trans bx.2.1 bx.2.2.2,
      le_trans by'.2.2.1 by'.1, le_trans by'.2.1 by'.2.2.2⟩
  · have bx := ax 0 light.cells_x x hw hx le_rfl zero_le_one
    have by' := ay 0 light.cells_y y hh hy le_rfl zero_le_one
    unfold cellLeft cellRight cellBottom cellTop
    exact ⟨bx.2.2.1, bx.2.2.2, by'.2.2.1, by'.2.2.2⟩

/-- Witness for C9: cell `(1, 0)` of the light of the examples under jittered
soft shadows. -/
theorem sample_in_cell_witness :
    cellLeft (exLight 2) 1
        ≤ (samplePos exPrims (exModeScene ShadowType.SOFT_JITTERED) (exLight 2)
            (cellsOf (exModeScene ShadowType.SOFT_JITTERED) (exLight 2).cells_x)
            (cellsOf (exModeScene ShadowType.SOFT_JITTERED) (exLight 2).cells_y) 1 0 0).1.x ∧
      (samplePos exPrims (exModeScene ShadowType.SOFT_JITTERED) (exLight 2)
            (cellsOf (exModeScene ShadowType.SOFT_JITTERED) (exLight 2).cells_x)
            (cellsOf (exModeScene ShadowType.SOFT_JITTERED) (exLight 2).cells_y) 1 0 0).1.x
        ≤ cellRight (exLight 2) 1 := by
  have hw : (0 : ℚ) < (exLight 2).width := by norm_num [exLight, Light.create]
  have hh : (0 : ℚ) < (exLight 2).height := by norm_num [exLight, Light.create]
  have h := (sample_in_cell exPrims (exModeScene ShadowType.SOFT_JITTERED) (exLight 2) 1 0 0
    hw hh (by decide) (by decide)).2.1 rfl
    (by norm_num [exPrims]) (by norm_num [exPrims]) (by norm_num [exPrims])
    (by norm_num [exPrims])
  exact ⟨h.2.1, h.2.2.1⟩

/-- C10: for a hit on a transparent material at depth `d + 1`, the colour is
the local illumination plus `kr` times the colour traced along the reflected
ray at depth `d` plus `kt` times the colour traced along the refracted ray at
depth `d`, where `kr = kr0 + (1 − kr0) (1 − shadingN · V) ^ 5`,
`kr0 = ((n_i − n_t) / (n_i + n_t)) ^ 2`, `(n_i, n_t)` is `(1, nt)` when
`V · N ≥ 0` and `(nt, 1)` otherwise, `kt = 1 − kr` and so `kr + kt = 1`;
the reflected ray starts at `hit + epsilon × shadingN` with direction
`reflect (−V, shadingN)`, the refracted ray starts at
`hit − epsilon × shadingN` with direction `refract (−V, shadingN, n_i, n_t)`;
nothing is assumed about the specular coefficient. -/
theorem trace_transparent (P : Prims) (sc : Scene) (ray : Ray) (d g : Nat) (obj : Object)
    (min_hit : Hit) (hres : sc.castRay ray = (some obj, min_hit))
    (htr : obj.material.isTransparent = true) :
    ∃ n_i n_t kr0 kr kt : ℚ,
      (n_i, n_t) = (if (-ray.D).dot min_hit.N ≥ 0 then (1, obj.material.nt)
                    else (obj.material.nt, 1)) ∧
      kr0 = ((n_i - n_t) / (n_i + n_t)) ^ 2 ∧
      kr = kr0 + (1 - kr0) * (1 - (shadingNormal min_hit.N (-ray.D)).dot (-ray.D)) ^ 5 ∧
      kt = 1 - kr ∧
      kr + kt = 1 ∧
      (trace P sc 0 ray g).1 = localIllumination P sc (surfaceOf ray obj min_hit) g ∧
      (trace P sc (d + 1) ray g).1
        = localIllumination P sc (surfaceOf ray obj min_hit) g
          + kr • (trace P sc d (reflectRay P (surfaceOf ray obj min_hit))
                    (g + lightsDraws sc sc.lights)).1
          + kt • (trace P sc d (refractRay P (surfaceOf ray obj min_hit) n_i n_t)
                    (trace P sc d (reflectRay P (surfaceOf ray obj min_hit))
                      (g + lightsDraws sc sc.lights)).2).1 ∧
      reflectRay P (surfaceOf ray obj min_hit)
        = ⟨ray.pointAt min_hit.t + P.epsilon • shadingNormal min_hit.N (-ray.D),
           P.reflect (-(-ray.D)) (shadingNormal min_hit.N (-ray.D))⟩ ∧
      refractRay P (surfaceOf ray obj min_hit) n_i n_t
        = ⟨ray.pointAt min_hit.t - P.epsilon • shadingNormal min_hit.N (-ray.D),
           P.refract (-(-ray.D)) (shadingNormal min_hit.N (-ray.D)) n_i n_t⟩ := by
  refine ⟨(refractionIndices obj.material min_hit.N (-ray.D)).1,
    (refractionIndices obj.material min_hit.N (-ray.D)).2, _, _, _, ?_, rfl, rfl, rfl, ?_, ?_, ?_,
    rfl, rfl⟩
  · unfold refractionIndices
    split <;> rfl
  · ring
  · rw [trace_zero_hit P sc ray g obj min_hit hres, localColor_eq]
  · rw [trace_succ_transparent P sc ray d g obj min_hit hres htr]
    simp only [localColor_eq]
    rfl

/-- Witness for C10: the primary ray of the examples on the transparent
two-faced object, at depth `1`. -/
theorem trace_transparent_witness :
    (exSlabScene true).castRay exRay
        = (some (exSlab true), ⟨((1 / 2 : ℚ) : WithTop ℚ), ⟨0, 0, 1⟩⟩) ∧
    (exSlab true).material.isTransparent = true ∧
    ∃ n_i n_t kr kt : ℚ, kr + kt = 1 ∧
      (trace exPrims (exSlabScene true) 1 exRay 0).1
        = localIllumination exPrims (exSlabScene true)
            (surfaceOf exRay (exSlab true) ⟨((1 / 2 : ℚ) : WithTop ℚ), ⟨0, 0, 1⟩⟩) 0
          + kr • (trace exPrims (exSlabScene true) 0
                    (reflectRay exPrims
                      (surfaceOf exRay (exSlab true) ⟨((1 / 2 : ℚ) : WithTop ℚ), ⟨0, 0, 1⟩⟩))
                    (0 + lightsDraws (exSlabScene true) (exSlabScene true).lights)).1
          + kt • (trace exPrims (exSlabScene true) 0
                    (refractRay exPrims
                      (surfaceOf exRay (exSlab true) ⟨((1 / 2 : ℚ) : WithTop ℚ), ⟨0, 0, 1⟩⟩)
                      n_i n_t)
                    (trace exPrims (exSlabScene true) 0
                      (reflectRay exPrims
                        (surfaceOf exRay (exSlab true)
                          ⟨((1 / 2 : ℚ) : WithTop ℚ), ⟨0, 0, 1⟩⟩))
                      (0 + lightsDraws (exSlabScene true) (exSlabScene true).lights)).2).1 := by
  obtain ⟨n_i, n_t, _, kr, kt, _, _, _, _, hsum, _, htrace, _, _⟩ :=
    trace_transparent exPrims (exSlabScene true) exRay 0 0 (exSlab true) _
      (ex_castRay_slab true) rfl
  exact ⟨ex_castRay_slab true, rfl, n_i, n_t, kr, kt, hsum, htrace⟩

/-! ## The recursive calls of `trace` -/

/-- The `unsigned` value `d - 1` for a positive depth. -/
theorem u32sub_one (d : Nat) (h0 : 0 < d) (hd : d < 4294967296) : u32sub d 1 = d - 1 := by
  unfold u32sub
  omega

/-- Over the identity monad the body is `traceBody`. -/
theorem traceBodyM_id (P : Prims) (sc : Scene) (depth : Nat) (recur : Ray → Nat → Color × Nat)
    (ray : Ray) (g : Nat) :
    traceBodyM (m := Id) P sc depth (fun _ r g => recur r g) ray g
      = traceBody P sc depth recur ray g := by
  unfold traceBodyM traceBody
  rcases sc.castRay ray with ⟨_ | obj, min_hit⟩
  · rfl
  · simp only
    split_ifs <;> rfl

/-- With recorded calls the result is that of `traceBody`, for the answers at
depth `depth - 1`. -/
theorem traceBodyM_logged_fst (P : Prims) (sc : Scene) (depth : Nat)
    (ans : Nat → Ray → Nat → Color × Nat) (ray : Ray) (g : Nat) :
    (traceBodyM P sc depth (loggedCall ans) ray g).1
      = traceBody P sc depth (ans (u32sub depth 1)) ray g := by
  unfold traceBodyM traceBody
  rcases sc.castRay ray with ⟨_ | obj, min_hit⟩
  · rfl
  · simp only
    split_ifs <;> rfl

/-- With an oracle that answers, the body over `Option` answers with the
result of `traceBody`. -/
theorem traceBodyM_some (P : Prims) (sc : Scene) (depth : Nat)
    (recur : Nat → Ray → Nat → Option (Color × Nat)) (ans : Ray → Nat → Color × Nat)
    (h : 0 < depth → ∀ r g, recur (u32sub depth 1) r g = some (ans r g)) (ray : Ray) (g : Nat) :
    traceBodyM P sc depth recur ray g = some (traceBody P sc depth ans ray g) := by
  unfold traceBodyM traceBody
  rcases sc.castRay ray with ⟨_ | obj, min_hit⟩
  · rfl
  · simp only
    split_ifs with h1 h2
    · simp [h h1.1]
    · simp [h h2.1]
    · rfl

/-- With more fuel than the depth, `traceFuel` returns the result of `trace`. -/
theorem traceFuel_eq (P : Prims) (sc : Scene) (fuel : Nat) :
    ∀ (d : Nat), d < 4294967296 → d < fuel →
      ∀ ray g, traceFuel P sc fuel d ray g = some (trace P sc d ray g) := by
  induction fuel with
  | zero => intro d _ h; exact absurd h (Nat.not_lt_zero d)
  | succ fuel ih =>
    intro d hd hf ray g
    cases d with
    | zero =>
      exact traceBodyM_some P sc 0 _ _ (fun h => absurd h (Nat.lt_irrefl 0)) ray g
    | succ d =>
      refine traceBodyM_some P sc (d + 1) _ (trace P sc d) (fun _ r g' => ?_) ray g
      rw [u32sub_one (d + 1) (Nat.succ_pos d) hd]
      exact ih d (by omega) (by omega) r g'

/-- The recursive calls the body makes, by branch. -/
theorem directCalls_eq (P : Prims) (sc : Scene) (depth : Nat)
    (ans : Nat → Ray → Nat → Color × Nat) (ray : Ray) (g : Nat) (obj : Object) (min_hit : Hit)
    (hres : sc.castRay ray = (some obj, min_hit)) :
    directCalls P sc depth ans ray g
      = if depth > 0 ∧ obj.material.isTransparent = true then
          [⟨u32sub depth 1, reflectRay P (surfaceOf ray obj min_hit),
              (localColor P sc (surfaceOf ray obj min_hit) g).2⟩,
           ⟨u32sub depth 1,
              refractRay P (surfaceOf ray obj min_hit)
                (refractionIndices obj.material min_hit.N (-ray.D)).1
                (refractionIndices obj.material min_hit.N (-ray.D)).2,
              (ans (u32sub depth 1) (reflectRay P (surfaceOf ray obj min_hit))
                (localColor P sc (surfaceOf ray obj min_hit) g).2).2⟩]
        else if depth > 0 ∧ obj.material.ks > 0 then
          [⟨u32sub depth 1, reflectRay P (surfaceOf ray obj min_hit),
              (localColor P sc (surfaceOf ray obj min_hit) g).2⟩]
        else [] := by
  unfold directCalls traceBodyM
  rw [hres]
  simp only
  have hm : (surfaceOf ray obj min_hit).material = obj.material := rfl
  have hv : (surfaceOf ray obj min_hit).V = -ray.D := rfl
  rw [hm, hv]
  split_ifs <;> rfl

/-- A ray that hits nothing makes no recursive call. -/
theorem directCalls_miss (P : Prims) (sc : Scene) (depth : Nat)
    (ans : Nat → Ray → Nat → Color × Nat) (ray : Ray) (g : Nat)
    (hres : (sc.castRay ray).1 = none) :
    directCalls P sc depth ans ray g = [] := by
  unfold directCalls traceBodyM
  rcases h : sc.castRay ray with ⟨_ | obj, min_hit⟩
  · rfl
  · rw [h] at hres; exact absurd hres (by simp)

/-- Every recursive call is made at positive depth and passes `depth - 1`. -/
theorem directCalls_depth (P : Prims) (sc : Scene) (depth : Nat)
    (ans : Nat → Ray → Nat → Color × Nat) (ray : Ray) (g : Nat) (c : Call)
    (hc : c ∈ directCalls P sc depth ans ray g) :
    0 < depth ∧ c.depth = u32sub depth 1 := by
  rcases h : sc.castRay ray with ⟨_ | obj, min_hit⟩
  · rw [directCalls_miss P sc depth ans ray g (by rw [h])] at hc
    exact absurd hc (List.not_mem_nil c)
  · rw [directCalls_eq P sc depth ans ray g obj min_hit h] at hc
    split_ifs at hc with h1 h2
    · simp only [List.mem_cons, List.mem_singleton, List.not_mem_nil, or_false] at hc
      rcases hc with rfl | rfl <;> exact ⟨h1.1, rfl⟩
    · simp only [List.mem_singleton] at hc
      subst hc
      exact ⟨h2.1, rfl⟩
    · exact absurd hc (List.not_mem_nil c)

/-- At positive depth a hit on an opaque material with positive specular
coefficient takes the second branch. -/
theorem trace_succ_mirror (P : Prims) (sc : Scene) (ray : Ray) (d g : Nat) (obj : Object)
    (min_hit : Hit) (hres : sc.castRay ray = (some obj, min_hit))
    (hop : obj.material.isTransparent = false) (hks : 0 < obj.material.ks) :
    trace P sc (d + 1) ray g =
      (let s := surfaceOf ray obj min_hit
       let color := localColor P sc s g
       let reflectColor := trace P sc d (reflectRay P s) color.2
       (color.1 + obj.material.ks • reflectColor.1, reflectColor.2)) := by
  have hs : (surfaceOf ray obj min_hit).material = obj.material := rfl
  simp [trace, traceBody, hres, hs, hop, hks]

/-- A hit on an opaque material whose specular coefficient is not positive
returns the colour after the light loop, at every depth. -/
theorem trace_opaque_dull (P : Prims) (sc : Scene) (ray : Ray) (d g : Nat) (obj : Object)
    (min_hit : Hit) (hres : sc.castRay ray = (some obj, min_hit))
    (hop : obj.material.isTransparent = false) (hks : ¬ 0 < obj.material.ks) :
    trace P sc d ray g = localColor P sc (surfaceOf ray obj min_hit) g := by
  have hs : (surfaceOf ray obj min_hit).material = obj.material := rfl
  cases d <;> simp [trace, traceBody, hres, hs, hop, hks]

/-- Without lights the light loop leaves the ambient term. -/
theorem localColor_no_lights (P : Prims) (sc : Scene) (s : Surface) (g : Nat)
    (hl : sc.lights = []) :
    localColor P sc s g = (s.material.ka • s.matColor, g) := by
  unfold localColor
  rw [hl]
  rfl

/-- The reflected ray at the origin for a view straight from above is the
upward ray of the examples. -/
theorem ex_reflectRay (s : Surface) (h1 : s.hit = ⟨0, 0, 0⟩) (h2 : s.V = ⟨0, 0, 1⟩)
    (h3 : s.shadingN = ⟨0, 0, 1⟩) :
    reflectRay exPrims s = ⟨⟨0, 0, 1 / 1000⟩, ⟨0, 0, 1⟩⟩ := by
  have h4 : exPrims.reflect = exReflect := rfl
  have h5 : exPrims.epsilon = 1 / 1000 := rfl
  unfold reflectRay
  rw [h1, h2, h3, h4, h5]
  norm_num [exReflect]

/-- The primary ray hits the lower face of the object of `exNegScene`. -/
theorem ex_castRay_neg :
    exNegScene.castRay exRay = (some exNegSlab, ⟨((1 / 2 : ℚ) : WithTop ℚ), ⟨0, 0, 1⟩⟩) := by
  have c1 : ((1 / 2 : ℚ) : WithTop ℚ) < ⊤ := WithTop.coe_lt_top _
  have c2 : ¬ (⊤ : WithTop ℚ) < ((1 / 2 : ℚ) : WithTop ℚ) := not_top_lt
  simp only [Scene.castRay, exNegScene, List.foldl, castRayStep, exNegSlab, slabIntersect,
    ex_plane_down_hit, ex_plane_down_miss 1 le_rfl, c1, c2, if_true, if_false]

/-- The upward ray hits the upper face of the object of `exNegScene`. -/
theorem ex_castRay_neg_up :
    exNegScene.castRay ⟨⟨0, 0, 1 / 1000⟩, ⟨0, 0, 1⟩⟩
      = (some exNegSlab, ⟨((999 / 1000 : ℚ) : WithTop ℚ), ⟨0, 0, 1⟩⟩) := by
  have e : ((1 : ℚ) - 1 / 1000) = 999 / 1000 := by norm_num
  have h1 := ex_plane_up_hit 1 le_rfl
  rw [e] at h1
  have c1 : ((999 / 1000 : ℚ) : WithTop ℚ) < ⊤ := WithTop.coe_lt_top _
  simp only [Scene.castRay, exNegScene, List.foldl, castRayStep, exNegSlab, slabIntersect,
    ex_plane_up_miss, h1, c1, if_true]

/-- In `exNegScene` every hit of the object is coloured by the ambient term. -/
theorem ex_neg_local (ray : Ray) (min_hit : Hit) (g : Nat) :
    localColor exPrims exNegScene (surfaceOf ray exNegSlab min_hit) g = (⟨1 / 5, 0, 0⟩, g) := by
  rw [localColor_no_lights _ _ _ _ rfl]
  have h1 : (surfaceOf ray exNegSlab min_hit).material.ka = 1 / 5 := rfl
  have h2 : (surfaceOf ray exNegSlab min_hit).matColor = ⟨1, 0, 0⟩ := rfl
  rw [h1, h2]
  norm_num

/-- The dot product with an opposite vector. -/
theorem dot_neg_left (a b : Triple) : (-a).dot b = -(a.dot b) := by
  show (-a.x) * b.x + (-a.y) * b.y + (-a.z) * b.z = -(a.x * b.x + a.y * b.y + a.z * b.z)
  ring

/-- Schlick: the base reflectance lies in `[0, 1)` for a positive index. -/
theorem schlickKr0_bounds (nt : ℚ) (hnt : 0 < nt) :
    0 ≤ schlickKr0 1 nt ∧ schlickKr0 1 nt < 1 ∧ schlickKr0 nt 1 = schlickKr0 1 nt := by
  unfold schlickKr0
  have hp : (0 : ℚ) < 1 + nt := by linarith
  refine ⟨sq_nonneg _, ?_, ?_⟩
  · rw [div_pow, div_lt_one (pow_pos hp 2)]
    nlinarith
  · rw [add_comm nt 1, div_pow, div_pow]
    congr 1
    ring

/-! ## The loops of `render` -/

/-- A loop over a list that adds one traced, clamped colour per ray. -/
theorem foldl_clamped (P : Prims) (clamp : Color → Color) (sc : Scene) (rays : List Ray)
    (acc : Color × Nat) :
    rays.foldl (fun a r => (a.1 + clamp (trace P sc sc.recursionDepth r a.2).1,
        (trace P sc sc.recursionDepth r a.2).2)) acc
      = (acc.1 + (clampedSum P clamp sc rays acc.2).1, (clampedSum P clamp sc rays acc.2).2) := by
  induction rays generalizing acc with
  | nil => simp [clampedSum]
  | cons r rs ih =>
    rw [List.foldl_cons, ih]
    simp [clampedSum, add_assoc]

/-- The subpixel loops add up the clamped colours of the subpixel rays. -/
theorem subpixelLoop_eq (P : Prims) (clamp : Color → Color) (sc : Scene) (h x y g : Nat) :
    subpixelLoop P clamp sc h x y g = clampedSum P clamp sc (subpixelRays P sc h x y) g := by
  have key := foldl_clamped P clamp sc (subpixelRays P sc h x y) (Triple.zero, g)
  have z : (Triple.zero : Color) = 0 := rfl
  rw [z] at key
  simp only [zero_add, Prod.mk.eta] at key
  rw [← key]
  unfold subpixelLoop subpixelRays
  rw [List.foldl_flatten, List.foldl_map, z]
  congr 1
  funext accx s_x
  rw [List.foldl_map]
  rfl

/-- The clamped sum over rays that all trace to the colour `c`. -/
theorem clampedSum_const (P : Prims) (clamp : Color → Color) (sc : Scene) (c : Color)
    (rays : List Ray) (hc : ∀ r ∈ rays, ∀ g, (trace P sc sc.recursionDepth r g).1 = c) (g : Nat) :
    (clampedSum P clamp sc rays g).1 = rays.length • clamp c := by
  induction rays generalizing g with
  | nil => simp [clampedSum]
  | cons r rs ih =>
    have h1 := hc r (List.mem_cons_self r rs) g
    have h2 := ih (fun r' hr' => hc r' (List.mem_cons_of_mem r hr'))
      (trace P sc sc.recursionDepth r g).2
    simp only [clampedSum, h1, h2, List.length_cons, succ_nsmul]
    rw [add_comm]

/-- There are `supersamplingFactor²` subpixel rays. -/
theorem subpixelRays_length (P : Prims) (sc : Scene) (h x y : Nat) :
    (subpixelRays P sc h x y).length = sc.supersamplingFactor * sc.supersamplingFactor := by
  unfold subpixelRays
  simp [List.length_flatten, List.map_map, Function.comp_def]

/-- `unsigned` subtraction without wrap-around. -/
theorem u32sub_of_le (a b : Nat) (hb : b ≤ a) (ha : a < 4294967296) : u32sub a b = a - b := by
  unfold u32sub
  omega

/-- The row index `h - 1 - y` of `render` for a row of the image. -/
theorem flipped_row (h y : Nat) (hh : h < 4294967296) (hy : y < h) :
    ((u32sub (u32sub h 1) y : Nat) : ℚ) = (h : ℚ) - 1 - y := by
  rw [u32sub_of_le h 1 (by omega) hh, u32sub_of_le (h - 1) y (by omega) (by omega)]
  have h1 : y ≤ h - 1 := by omega
  have h2 : 1 ≤ h := by omega
  rw [Nat.cast_sub h1, Nat.cast_sub h2]
  simp

/-- One row of `render` stores the pixels of that row and keeps the others. -/
theorem row_stored (P : Prims) (clamp : Color → Color) (sc : Scene) (h y : Nat)
    (R : Nat → Nat → Prop) (n : Nat) (acc : Image × Nat)
    (hacc : ∀ i j, R i j → Stored P clamp sc h acc.1 i j) :
    ∀ i j, (R i j ∨ (j = y ∧ i < n)) →
      Stored P clamp sc h ((List.range n).foldl (pixelStep P clamp sc h y) acc).1 i j := by
  induction n with
  | zero =>
    intro i j hij
    rcases hij with h1 | ⟨_, h2⟩
    · exact hacc i j h1
    · exact absurd h2 (Nat.not_lt_zero i)
  | succ n ih =>
    intro i j hij
    rw [List.range_succ, List.foldl_append, List.foldl_cons, List.foldl_nil]
    generalize (List.range n).foldl (pixelStep P clamp sc h y) acc = r at ih
    by_cases he : i = n ∧ j = y
    · refine ⟨r.2, ?_⟩
      show (if i = n ∧ j = y then (pixelColor P clamp sc h n y r.2).1 else r.1.data i j) = _
      rw [if_pos he, he.1, he.2]
    · have hold : Stored P clamp sc h r.1 i j := by
        apply ih
        rcases hij with h1 | ⟨h2, h3⟩
        · exact Or.inl h1
        · refine Or.inr ⟨h2, ?_⟩
          rcases Nat.lt_succ_iff_lt_or_eq.1 h3 with h4 | h4
          · exact h4
          · exact absurd ⟨h4, h2⟩ he
      obtain ⟨g', hg'⟩ := hold
      refine ⟨g', ?_⟩
      show (if i = n ∧ j = y then (pixelColor P clamp sc h n y r.2).1 else r.1.data i j) = _
      rw [if_neg he, hg']

/-- The rows of `render` store every pixel they cover. -/
theorem rows_stored (P : Prims) (clamp : Color → Color) (sc : Scene) (w h : Nat) (m : Nat)
    (acc : Image × Nat) :
    ∀ i j, (j < m ∧ i < w) →
      Stored P clamp sc h ((List.range m).foldl
        (fun accy y => (List.range w).foldl (pixelStep P clamp sc h y) accy) acc).1 i j := by
  induction m with
  | zero => intro i j hij; exact absurd hij.1 (Nat.not_lt_zero j)
  | succ m ih =>
    intro i j hij
    rw [List.range_succ, List.foldl_append, List.foldl_cons, List.foldl_nil]
    apply row_stored P clamp sc h m (fun i j => j < m ∧ i < w) w _ ih
    rcases Nat.lt_succ_iff_lt_or_eq.1 hij.1 with h4 | h4
    · exact Or.inl ⟨h4, hij.2⟩
    · exact Or.inr ⟨h4, hij.2⟩

/-- After `render` every pixel of the image holds the value computed for it. -/
theorem render_stored (P : Prims) (clamp : Color → Color) (sc : Scene) (img : Image) (g : Nat)
    (x y : Nat) (hx : x < img.width) (hy : y < img.height) :
    Stored P clamp sc img.height (render P clamp sc img g).1 x y :=
  rows_stored P clamp sc img.width img.height img.height (img, g) x y ⟨hy, hx⟩

/-- The value stored for a pixel, as a sum over its subpixel rays. -/
theorem pixelColor_eq (P : Prims) (clamp : Color → Color) (sc : Scene) (h x y g : Nat) :
    (pixelColor P clamp sc h x y g).1
      = (clampedSum P clamp sc (subpixelRays P sc h x y) g).1
        / ((u32mul sc.supersamplingFactor sc.supersamplingFactor : Nat) : ℚ) := by
  unfold pixelColor
  rw [subpixelLoop_eq]

/-- The value stored for a pixel whose subpixel rays all trace to `c`. -/
theorem pixelColor_const (P : Prims) (clamp : Color → Color) (sc : Scene) (h x y g : Nat)
    (c : Color)
    (hc : ∀ r ∈ subpixelRays P sc h x y, ∀ g', (trace P sc sc.recursionDepth r g').1 = c) :
    (pixelColor P clamp sc h x y g).1
      = ((sc.supersamplingFactor * sc.supersamplingFactor) • clamp c)
        / ((u32mul sc.supersamplingFactor sc.supersamplingFactor : Nat) : ℚ) := by
  rw [pixelColor_eq, clampedSum_const P clamp sc c _ hc, subpixelRays_length]

/-- Supersampling without overflow: the stored pixel is the average of the
clamped colours of its subpixel rays; a pixel whose subpixel rays all trace
to `c` gets `clamp c`. -/
theorem render_average_in_range (P : Prims) (clamp : Color → Color) (sc : Scene) (img : Image)
    (g : Nat) (x y : Nat) (hx : x < img.width) (hy : y < img.height)
    (hf1 : 1 ≤ sc.supersamplingFactor)
    (hf2 : sc.supersamplingFactor * sc.supersamplingFactor < 4294967296) :
    (∃ g', (render P clamp sc img g).1.data x y
        = (clampedSum P clamp sc (subpixelRays P sc img.height x y) g').1
          / ((sc.supersamplingFactor * sc.supersamplingFactor : Nat) : ℚ)) ∧
    (subpixelRays P sc img.height x y).length
      = sc.supersamplingFactor * sc.supersamplingFactor ∧
    (∀ c : Color,
      (∀ r ∈ subpixelRays P sc img.height x y, ∀ g',
        (trace P sc sc.recursionDepth r g').1 = c) →
      (render P clamp sc img g).1.data x y = clamp c) := by
  have hu : u32mul sc.supersamplingFactor sc.supersamplingFactor
      = sc.supersamplingFactor * sc.supersamplingFactor := by
    unfold u32mul
    exact Nat.mod_eq_of_lt hf2
  obtain ⟨g', hg'⟩ := render_stored P clamp sc img g x y hx hy
  refine ⟨⟨g', ?_⟩, subpixelRays_length P sc img.height x y, ?_⟩
  · rw [hg', pixelColor_eq, hu]
  · intro c hc
    rw [hg', pixelColor_const P clamp sc img.height x y g' c hc, hu]
    exact Triple.nsmul_div_self _ (Nat.mul_pos hf1 hf1) _

/-- Every primary ray of `exBigScene` through a point of the image plane hits
the floor. -/
theorem ex_big_hit (p : Point) (hp : p.z = 0) :
    ((exPlane (-1) false).intersect (primaryRay exPrims exBigScene p)).t < ⊤ := by
  have hden : (0 : ℚ) < |p.x - 1 / 2| + |p.y - 1 / 2| + |p.z - 1| := by
    rw [hp]
    have h1 := abs_nonneg (p.x - 1 / 2)
    have h2 := abs_nonneg (p.y - 1 / 2)
    have h3 : |(0 : ℚ) - 1| = 1 := by norm_num
    rw [h3]
    linarith
  have hO : (primaryRay exPrims exBigScene p).O.z = 1 := rfl
  have hD : (primaryRay exPrims exBigScene p).D.z
      = (p.z - 1) / (|p.x - 1 / 2| + |p.y - 1 / 2| + |p.z - 1|) := rfl
  have hDneg : (primaryRay exPrims exBigScene p).D.z < 0 := by
    rw [hD, hp]
    apply div_neg_of_neg_of_pos _ (by rw [hp] at hden; exact hden)
    norm_num
  have hi : (exPlane (-1) false).intersect = planeIntersect (-1) := rfl
  rw [hi, planeIntersect_hit (-1) _ hDneg.ne
    (by rw [hO]; exact div_pos_of_neg_of_neg (by norm_num) hDneg)]
  exact WithTop.coe_lt_top _

/-- Every primary ray of `exBigScene` traces to the ambient colour. -/
theorem ex_big_trace (p : Point) (hp : p.z = 0) (g : Nat) :
    trace exPrims exBigScene 0 (primaryRay exPrims exBigScene p) g = (⟨1 / 5, 0, 0⟩, g) := by
  rw [trace_zero_hit _ _ _ _ _ _ (castRay_single exBigScene _ _ rfl (ex_big_hit p hp)),
    localColor_no_lights _ _ _ _ rfl]
  have h1 : ∀ hit, (surfaceOf (primaryRay exPrims exBigScene p) (exPlane (-1) false)
      hit).material.ka = 1 / 5 := fun _ => rfl
  have h2 : ∀ hit, (surfaceOf (primaryRay exPrims exBigScene p) (exPlane (-1) false)
      hit).matColor = ⟨1, 0, 0⟩ := fun _ => rfl
  rw [h1, h2]
  norm_num

/-- Every subpixel ray of `exBigScene` traces to the ambient colour. -/
theorem ex_big_rays (h x y : Nat) :
    ∀ r ∈ subpixelRays exPrims exBigScene h x y, ∀ g,
      (trace exPrims exBigScene exBigScene.recursionDepth r g).1 = ⟨1 / 5, 0, 0⟩ := by
  intro r hr g
  unfold subpixelRays at hr
  simp only [List.mem_flatten, List.mem_map, List.mem_range] at hr
  obtain ⟨l, ⟨s_x, _, rfl⟩, hr⟩ := hr
  simp only [List.mem_map, List.mem_range] at hr
  obtain ⟨s_y, _, rfl⟩ := hr
  have hd : exBigScene.recursionDepth = 0 := rfl
  rw [hd, ex_big_trace _ rfl g]

/-- Rendering an image of one pixel stores the value of that pixel. -/
theorem render_one_pixel (P : Prims) (clamp : Color → Color) (sc : Scene) (img : Image)
    (g : Nat) (hw : img.width = 1) (hh : img.height = 1) :
    (render P clamp sc img g).1.data 0 0 = (pixelColor P clamp sc 1 0 0 g).1 := by
  have r1 : List.range 1 = [0] := rfl
  unfold render
  rw [hw, hh]
  simp only [r1, List.foldl_cons, List.foldl_nil]
  simp [pixelStep, Image.set]

/-- One axis of the subpixel grid: the point lies strictly inside the pixel. -/
theorem subpixel_axis (a : ℚ) (s f : Nat) (hs : s < f) :
    a < a + (1 / 2 + (s : ℚ)) / f ∧ a + (1 / 2 + (s : ℚ)) / f < a + 1 ∧
    (a + (1 / 2 + ((s + 1 : Nat) : ℚ)) / f) - (a + (1 / 2 + (s : ℚ)) / f) = 1 / f := by
  have hf : (0 : ℚ) < f := by
    have : 0 < f := Nat.lt_of_le_of_lt (Nat.zero_le s) hs
    exact_mod_cast this
  have hsf : (s : ℚ) + 1 ≤ f := by exact_mod_cast hs
  have hs0 : (0 : ℚ) ≤ s := Nat.cast_nonneg s
  refine ⟨?_, ?_, ?_⟩
  · have : 0 < (1 / 2 + (s : ℚ)) / f := div_pos (by linarith) hf
    linarith
  · have : (1 / 2 + (s : ℚ)) / f < 1 := by
      rw [div_lt_one hf]
      linarith
    linarith
  · rw [add_sub_add_left_eq_sub, ← sub_div]
    congr 1
    push_cast
    ring

/-- The light loop does not read the flag `renderShadows`. -/
theorem localColor_setRenderShadows (P : Prims) (sc : Scene) (b : Bool) (s : Surface) (g : Nat) :
    localColor P (sc.setRenderShadows b) s g = localColor P sc s g := rfl

/-- `trace` does not read the flag `renderShadows`. -/
theorem trace_setRenderShadows (P : Prims) (sc : Scene) (b : Bool) (d : Nat) :
    ∀ ray g, trace P (sc.setRenderShadows b) d ray g = trace P sc d ray g := by
  induction d with
  | zero =>
    intro ray g
    exact traceBody_congr P sc (sc.setRenderShadows b) 0 _ _ ray g rfl
      (localColor_setRenderShadows P sc b) (fun _ _ => rfl)
  | succ d ih =>
    intro ray g
    exact traceBody_congr P sc (sc.setRenderShadows b) (d + 1) _ _ ray g rfl
      (localColor_setRenderShadows P sc b) ih

/-- `render` does not read the flag `renderShadows`. -/
theorem render_setRenderShadows (P : Prims) (clamp : Color → Color) (sc : Scene) (b : Bool)
    (img : Image) (g : Nat) :
    render P clamp (sc.setRenderShadows b) img g = render P clamp sc img g := by
  have hstep : ∀ h x y s_x s_y acc,
      subpixelStep P clamp (sc.setRenderShadows b) h x y s_x s_y acc
        = subpixelStep P clamp sc h x y s_x s_y acc := by
    intro h x y s_x s_y acc
    unfold subpixelStep
    have e : ∀ r g', trace P (sc.setRenderShadows b) (sc.setRenderShadows b).recursionDepth r g'
        = trace P sc sc.recursionDepth r g' := fun r g' => trace_setRenderShadows P sc b _ r g'
    simp only [e]
    rfl
  have hpix : ∀ h x y g', pixelColor P clamp (sc.setRenderShadows b) h x y g'
      = pixelColor P clamp sc h x y g' := by
    intro h x y g'
    unfold pixelColor subpixelLoop
    simp only [hstep]
    rfl
  unfold render pixelStep
  simp only [hpix]

/-- The primary ray meets the two-faced object on its lower face. -/
theorem ex_slab_down : slabIntersect exRay = ⟨((1 / 2 : ℚ) : WithTop ℚ), ⟨0, 0, 1⟩⟩ := by
  have c2 : ¬ (⊤ : WithTop ℚ) < ((1 / 2 : ℚ) : WithTop ℚ) := not_top_lt
  simp only [slabIntersect, ex_plane_down_hit, ex_plane_down_miss 1 le_rfl, c2, if_false]

/-- The primary ray hits the object of `exShinyScene`. -/
theorem ex_castRay_shiny :
    exShinyScene.castRay exRay
      = (some exShinySlab, ⟨((1 / 2 : ℚ) : WithTop ℚ), ⟨0, 0, 1⟩⟩) := by
  have hi : exShinySlab.intersect exRay = ⟨((1 / 2 : ℚ) : WithTop ℚ), ⟨0, 0, 1⟩⟩ := ex_slab_down
  have h := castRay_single exShinyScene exShinySlab exRay rfl
    (by rw [hi]; exact WithTop.coe_lt_top _)
  rw [hi] at h
  exact h

/-- The bound on the nesting is reached: at depth `1` a hit on a reflective
material does not return when only the outermost invocation is allowed. -/
theorem traceFuel_too_little : traceFuel exPrims exShinyScene 1 1 exRay 0 = none := by
  have hks : (0 : ℚ) < exShinySlab.material.ks := by
    show (0 : ℚ) < 1 / 4
    norm_num
  have hm : ∀ hit, (surfaceOf exRay exShinySlab hit).material = exShinySlab.material :=
    fun _ => rfl
  have hop : exShinySlab.material.isTransparent = false := rfl
  show traceBodyM exPrims exShinyScene 1 (fun _ _ _ => none) exRay 0 = none
  unfold traceBodyM
  rw [ex_castRay_shiny]
  simp only [hm, hop, hks]
  simp

/-! ## Claims, continued -/

/-- Counterexample to C11: an opaque material with the nonzero specular
coefficient `-1 / 4`.  At depth `1` the colour is the local illumination
`(1 / 5, 0, 0)` alone, although the reflected ray traces to `(1 / 5, 0, 0)`,
and no recursive call is made. -/
theorem negative_specular_not_reflected :
    exNegScene.castRay exRay = (some exNegSlab, ⟨((1 / 2 : ℚ) : WithTop ℚ), ⟨0, 0, 1⟩⟩) ∧
    exNegSlab.material.isTransparent = false ∧
    exNegSlab.material.ks = -1 / 4 ∧
    reflectRay exPrims (surfaceOf exRay exNegSlab ⟨((1 / 2 : ℚ) : WithTop ℚ), ⟨0, 0, 1⟩⟩)
      = ⟨⟨0, 0, 1 / 1000⟩, ⟨0, 0, 1⟩⟩ ∧
    (trace exPrims exNegScene 0 ⟨⟨0, 0, 1 / 1000⟩, ⟨0, 0, 1⟩⟩ 0).1 = ⟨1 / 5, 0, 0⟩ ∧
    localIllumination exPrims exNegScene
      (surfaceOf exRay exNegSlab ⟨((1 / 2 : ℚ) : WithTop ℚ), ⟨0, 0, 1⟩⟩) 0 = ⟨1 / 5, 0, 0⟩ ∧
    (trace exPrims exNegScene 1 exRay 0).1 = ⟨1 / 5, 0, 0⟩ ∧
    (trace exPrims exNegScene 1 exRay 0).1
      ≠ localIllumination exPrims exNegScene
          (surfaceOf exRay exNegSlab ⟨((1 / 2 : ℚ) : WithTop ℚ), ⟨0, 0, 1⟩⟩) 0
        + exNegSlab.material.ks
          • (trace exPrims exNegScene 0 ⟨⟨0, 0, 1 / 1000⟩, ⟨0, 0, 1⟩⟩ 0).1 ∧
    (∀ ans, directCalls exPrims exNegScene 1 ans exRay 0 = []) := by
  have hks : ¬ 0 < exNegSlab.material.ks := by
    show ¬ (0 : ℚ) < -1 / 4
    norm_num
  have hup : (trace exPrims exNegScene 0 ⟨⟨0, 0, 1 / 1000⟩, ⟨0, 0, 1⟩⟩ 0).1 = ⟨1 / 5, 0, 0⟩ := by
    rw [trace_zero_hit _ _ _ _ _ _ ex_castRay_neg_up, ex_neg_local]
  have hloc : localIllumination exPrims exNegScene
      (surfaceOf exRay exNegSlab ⟨((1 / 2 : ℚ) : WithTop ℚ), ⟨0, 0, 1⟩⟩) 0 = ⟨1 / 5, 0, 0⟩ := by
    have h := localColor_eq exPrims exNegScene
      (surfaceOf exRay exNegSlab ⟨((1 / 2 : ℚ) : WithTop ℚ), ⟨0, 0, 1⟩⟩) 0
    rw [ex_neg_local] at h
    exact (congrArg Prod.fst h).symm
  have h1 : (trace exPrims exNegScene 1 exRay 0).1 = ⟨1 / 5, 0, 0⟩ := by
    rw [trace_opaque_dull _ _ _ _ _ _ _ ex_castRay_neg rfl hks, ex_neg_local]
  refine ⟨ex_castRay_neg, rfl, rfl, ?_, hup, hloc, h1, ?_, ?_⟩
  · exact ex_reflectRay _ (ex_surface_geometry exNegSlab).1 (ex_surface_geometry exNegSlab).2.1
      (ex_surface_geometry exNegSlab).2.2
  · rw [h1, hloc, hup]
    have hk : exNegSlab.material.ks = -1 / 4 := rfl
    rw [hk]
    intro h
    have hx := congrArg Triple.x h
    norm_num at hx
  · intro ans
    rw [directCalls_eq _ _ _ _ _ _ _ _ ex_castRay_neg]
    have hk : ¬ exNegSlab.material.ks > 0 := hks
    simp [hk]
    rfl

/-- C11, amended: for a hit on an opaque material whose specular coefficient
is positive, at depth `d + 1`, the colour is the local illumination plus `ks`
times the colour traced at depth `d` along the reflected ray, which starts at
`hit + epsilon × shadingN` with direction `reflect (−V, shadingN)`; the
invocation makes exactly one recursive call, that one. -/
theorem trace_opaque_specular (P : Prims) (sc : Scene) (ray : Ray) (d g : Nat) (obj : Object)
    (min_hit : Hit) (hres : sc.castRay ray = (some obj, min_hit))
    (hop : obj.material.isTransparent = false) (hks : 0 < obj.material.ks)
    (hd : d + 1 < 4294967296) :
    (trace P sc (d + 1) ray g).1
      = localIllumination P sc (surfaceOf ray obj min_hit) g
        + obj.material.ks
          • (trace P sc d (reflectRay P (surfaceOf ray obj min_hit))
              (g + lightsDraws sc sc.lights)).1 ∧
    reflectRay P (surfaceOf ray obj min_hit)
      = ⟨ray.pointAt min_hit.t + P.epsilon • shadingNormal min_hit.N (-ray.D),
         P.reflect (-(-ray.D)) (shadingNormal min_hit.N (-ray.D))⟩ ∧
    (∀ ans, directCalls P sc (d + 1) ans ray g
      = [⟨d, reflectRay P (surfaceOf ray obj min_hit), g + lightsDraws sc sc.lights⟩]) := by
  refine ⟨?_, rfl, ?_⟩
  · rw [trace_succ_mirror P sc ray d g obj min_hit hres hop hks]
    simp only [localColor_eq]
  · intro ans
    rw [directCalls_eq P sc (d + 1) ans ray g obj min_hit hres, hop]
    have h1 : d + 1 > 0 ∧ obj.material.ks > 0 := ⟨Nat.succ_pos d, hks⟩
    rw [if_neg (by simp), if_pos h1, u32sub_one (d + 1) (Nat.succ_pos d) hd, localColor_eq]
    rfl

/-- Witness for C11, amended: a two-faced object with specular coefficient
`1 / 4`, at depth `1`. -/
theorem trace_opaque_specular_witness :
    exShinyScene.castRay exRay
        = (some exShinySlab, ⟨((1 / 2 : ℚ) : WithTop ℚ), ⟨0, 0, 1⟩⟩) ∧
    exShinySlab.material.isTransparent = false ∧
    (0 : ℚ) < exShinySlab.material.ks ∧
    (∀ ans, directCalls exPrims exShinyScene (0 + 1) ans exRay 0
      = [⟨0, reflectRay exPrims
              (surfaceOf exRay exShinySlab ⟨((1 / 2 : ℚ) : WithTop ℚ), ⟨0, 0, 1⟩⟩),
            0 + lightsDraws exShinyScene exShinyScene.lights⟩]) := by
  have hks : (0 : ℚ) < exShinySlab.material.ks := by
    show (0 : ℚ) < 1 / 4
    norm_num
  exact ⟨ex_castRay_shiny, rfl, hks,
    (trace_opaque_specular exPrims exShinyScene exRay 0 0 exShinySlab _ ex_castRay_shiny rfl hks
      (by norm_num)).2.2⟩

/-- C12: for every scene, ray and `unsigned` depth `d`, `trace` returns its
result as soon as `d + 1` nested invocations are allowed (the outermost one
and at most `d` below it); every recursive call an invocation makes is made at
positive depth and passes `d − 1`, without wrap-around. -/
theorem trace_terminates (P : Prims) (sc : Scene) (ray : Ray) (d g : Nat)
    (hd : d < 4294967296) :
    (∀ fuel, d < fuel → traceFuel P sc fuel d ray g = some (trace P sc d ray g)) ∧
    traceFuel P sc (d + 1) d ray g = some (trace P sc d ray g) ∧
    (∀ (ans : Nat → Ray → Nat → Color × Nat) (c : Call),
      c ∈ directCalls P sc d ans ray g → 0 < d ∧ c.depth = d - 1 ∧ c.depth + 1 = d) := by
  refine ⟨fun fuel hf => traceFuel_eq P sc fuel d hd hf ray g,
    traceFuel_eq P sc (d + 1) d hd (Nat.lt_succ_self d) ray g, ?_⟩
  intro ans c hc
  obtain ⟨h0, h1⟩ := directCalls_depth P sc d ans ray g c hc
  rw [u32sub_one d h0 hd] at h1
  exact ⟨h0, h1, by omega⟩

/-- Witness for C12: depth `2` in the example scene. -/
theorem trace_terminates_witness :
    (2 : Nat) < 4294967296 ∧
    traceFuel exPrims (exSlabScene true) (2 + 1) 2 exRay 0
      = some (trace exPrims (exSlabScene true) 2 exRay 0) :=
  ⟨by norm_num, (trace_terminates exPrims (exSlabScene true) exRay 2 0 (by norm_num)).2.1⟩

/-- C13: the shading normal is `N` when `N · V ≥ 0` and `−N` otherwise, so
its product with `V` is never negative; `trace` uses it with `V` the opposite
of the ray direction. -/
theorem shadingNormal_faces_viewer (N V : Vector) :
    (N.dot V ≥ 0 → shadingNormal N V = N) ∧
    (¬ N.dot V ≥ 0 → shadingNormal N V = -N) ∧
    (shadingNormal N V).dot V ≥ 0 ∧
    (∀ (ray : Ray) (obj : Object) (min_hit : Hit),
      (surfaceOf ray obj min_hit).V = -ray.D ∧
      (surfaceOf ray obj min_hit).shadingN = shadingNormal min_hit.N (-ray.D)) := by
  refine ⟨fun h => if_pos h, fun h => if_neg h, ?_, fun _ _ _ => ⟨rfl, rfl⟩⟩
  unfold shadingNormal
  by_cases h : N.dot V ≥ 0
  · rw [if_pos h]; exact h
  · rw [if_neg h, dot_neg_left]
    have : N.dot V < 0 := not_le.1 h
    linarith

/-- Evaluation for C14 at a failing input: with supersampling factor `65537`
the `unsigned` product `factor * factor` is `131073`, not `65537²`.  Every
subpixel ray of the one pixel traces to `(1 / 5, 0, 0)`, yet the pixel stored
is `65537² / 131073` times that colour. -/
theorem render_factor_overflow :
    exBigScene.supersamplingFactor = 65537 ∧
    u32mul exBigScene.supersamplingFactor exBigScene.supersamplingFactor = 131073 ∧
    (subpixelRays exPrims exBigScene 1 0 0).length = 4295098369 ∧
    (∀ r ∈ subpixelRays exPrims exBigScene 1 0 0, ∀ g,
      (trace exPrims exBigScene exBigScene.recursionDepth r g).1 = ⟨1 / 5, 0, 0⟩) ∧
    exClamp ⟨1 / 5, 0, 0⟩ = ⟨1 / 5, 0, 0⟩ ∧
    (render exPrims exClamp exBigScene exImage 0).1.data 0 0 = ⟨4295098369 / 655365, 0, 0⟩ ∧
    (render exPrims exClamp exBigScene exImage 0).1.data 0 0 ≠ exClamp ⟨1 / 5, 0, 0⟩ := by
  have hu : u32mul exBigScene.supersamplingFactor exBigScene.supersamplingFactor = 131073 := by
    show (65537 * 65537) % 4294967296 = 131073
    norm_num
  have hc : exClamp ⟨1 / 5, 0, 0⟩ = ⟨1 / 5, 0, 0⟩ := by
    unfold exClamp
    norm_num
  have hlen : (subpixelRays exPrims exBigScene 1 0 0).length = 4295098369 := by
    rw [subpixelRays_length]
    show 65537 * 65537 = 4295098369
    norm_num
  have hval : (render exPrims exClamp exBigScene exImage 0).1.data 0 0
      = ⟨4295098369 / 655365, 0, 0⟩ := by
    rw [render_one_pixel _ _ _ _ _ rfl rfl, pixelColor_eq,
      clampedSum_const _ _ _ _ _ (ex_big_rays 1 0 0), hlen, hu, hc,
      ← Nat.cast_smul_eq_nsmul ℚ]
    norm_num
  refine ⟨rfl, hu, hlen, ex_big_rays 1 0 0, hc, hval, ?_⟩
  rw [hval, hc]
  intro h
  have hx := congrArg Triple.x h
  norm_num at hx

/-- C15: for every pixel `(x, y)` of an image of height `h`, `render` stores
the sum of the clamped colours traced along the subpixel rays of the pixel
(divided by the `unsigned` square of the factor), and the ray of subpixel
`(s_x, s_y)`, for `s_x` and `s_y` below the supersampling factor, goes from the
eye through the point
`(x + (0.5 + s_x) / factor, h − 1 − y + (0.5 + s_y) / factor, 0)`; neighbouring
points are `1 / factor` apart on each axis, every point lies strictly inside
the square `[x, x + 1] × [h − 1 − y, h − y]`, and for factor `1` the point is
the centre of the pixel. -/
theorem subpixel_point_in_pixel (P : Prims) (clamp : Color → Color) (sc : Scene)
    (img : Image) (g x y s_x s_y : Nat)
    (hh : img.height < 4294967296) (hx : x < img.width) (hy : y < img.height)
    (hsx : s_x < sc.supersamplingFactor) (hsy : s_y < sc.supersamplingFactor) :
    (∃ g', (render P clamp sc img g).1.data x y
        = (clampedSum P clamp sc (subpixelRays P sc img.height x y) g').1
          / ((u32mul sc.supersamplingFactor sc.supersamplingFactor : Nat) : ℚ)) ∧
    subpixelRays P sc img.height x y
      = ((List.range sc.supersamplingFactor).map fun i =>
          (List.range sc.supersamplingFactor).map fun j =>
            (⟨sc.eye, P.normalized
              (subpixelPoint img.height x y i j sc.supersamplingFactor - sc.eye)⟩ : Ray)).flatten ∧
    (⟨sc.eye, P.normalized
        (subpixelPoint img.height x y s_x s_y sc.supersamplingFactor - sc.eye)⟩ : Ray)
      ∈ subpixelRays P sc img.height x y ∧
    (∀ acc : Color × Nat, subpixelStep P clamp sc img.height x y s_x s_y acc
      = (acc.1 + clamp (trace P sc sc.recursionDepth
            ⟨sc.eye, P.normalized
              (subpixelPoint img.height x y s_x s_y sc.supersamplingFactor - sc.eye)⟩
            acc.2).1,
         (trace P sc sc.recursionDepth
            ⟨sc.eye, P.normalized
              (subpixelPoint img.height x y s_x s_y sc.supersamplingFactor - sc.eye)⟩
            acc.2).2)) ∧
    subpixelPoint img.height x y s_x s_y sc.supersamplingFactor
      = ⟨(x : ℚ) + (1 / 2 + (s_x : ℚ)) / sc.supersamplingFactor,
         ((img.height : ℚ) - 1 - y) + (1 / 2 + (s_y : ℚ)) / sc.supersamplingFactor, 0⟩ ∧
    (subpixelPoint img.height x y (s_x + 1) s_y sc.supersamplingFactor).x
        - (subpixelPoint img.height x y s_x s_y sc.supersamplingFactor).x
      = 1 / sc.supersamplingFactor ∧
    (subpixelPoint img.height x y s_x (s_y + 1) sc.supersamplingFactor).y
        - (subpixelPoint img.height x y s_x s_y sc.supersamplingFactor).y
      = 1 / sc.supersamplingFactor ∧
    ((x : ℚ) < (subpixelPoint img.height x y s_x s_y sc.supersamplingFactor).x ∧
      (subpixelPoint img.height x y s_x s_y sc.supersamplingFactor).x < (x : ℚ) + 1 ∧
      (img.height : ℚ) - 1 - y
        < (subpixelPoint img.height x y s_x s_y sc.supersamplingFactor).y ∧
      (subpixelPoint img.height x y s_x s_y sc.supersamplingFactor).y
        < (img.height : ℚ) - y) ∧
    (sc.supersamplingFactor = 1 →
      subpixelPoint img.height x y s_x s_y sc.supersamplingFactor
        = ⟨(x : ℚ) + 1 / 2, ((img.height : ℚ) - 1 - y) + 1 / 2, 0⟩) := by
  have hrow := flipped_row img.height y hh hy
  have ax := subpixel_axis (x : ℚ) s_x sc.supersamplingFactor hsx
  have ay := subpixel_axis ((img.height : ℚ) - 1 - y) s_y sc.supersamplingFactor hsy
  have hpt : subpixelPoint img.height x y s_x s_y sc.supersamplingFactor
      = ⟨(x : ℚ) + (1 / 2 + (s_x : ℚ)) / sc.supersamplingFactor,
         ((img.height : ℚ) - 1 - y) + (1 / 2 + (s_y : ℚ)) / sc.supersamplingFactor, 0⟩ := by
    unfold subpixelPoint
    rw [hrow]
  have hpx : ∀ s, (subpixelPoint img.height x y s s_y sc.supersamplingFactor).x
      = (x : ℚ) + (1 / 2 + (s : ℚ)) / sc.supersamplingFactor := fun _ => rfl
  have hpy : ∀ s, (subpixelPoint img.height x y s_x s sc.supersamplingFactor).y
      = ((img.height : ℚ) - 1 - y) + (1 / 2 + (s : ℚ)) / sc.supersamplingFactor := by
    intro s
    unfold subpixelPoint
    rw [hrow]
  obtain ⟨g', hg'⟩ := render_stored P clamp sc img g x y hx hy
  refine ⟨⟨g', ?_⟩, rfl, ?_, fun _ => rfl, hpt, ?_, ?_, ⟨?_, ?_, ?_, ?_⟩, ?_⟩
  · rw [hg', pixelColor_eq]
  · unfold subpixelRays
    rw [List.mem_flatten]
    exact ⟨_, List.mem_map.2 ⟨s_x, List.mem_range.2 hsx, rfl⟩,
      List.mem_map.2 ⟨s_y, List.mem_range.2 hsy, rfl⟩⟩
  · rw [hpx, hpx]; exact ax.2.2
  · rw [hpy, hpy]; exact ay.2.2
  · rw [hpx]; exact ax.1
  · rw [hpx]; exact ax.2.1
  · rw [hpy]; exact ay.1
  · rw [hpy]; have := ay.2.1; linarith
  · intro hf
    rw [hf] at hsx hsy
    have e1 : s_x = 0 := by omega
    have e2 : s_y = 0 := by omega
    rw [hpt, hf, e1, e2]
    norm_num

/-- Witness for C15: subpixel `(3, 65536)` of the one pixel of the example
image, for supersampling factor `65537`. -/
theorem subpixel_point_in_pixel_witness :
    exImage.height < 4294967296 ∧ 0 < exImage.width ∧ 0 < exImage.height ∧
    (3 : Nat) < exBigScene.supersamplingFactor ∧ (65536 : Nat) < exBigScene.supersamplingFactor ∧
    (⟨exBigScene.eye, exPrims.normalized
        (subpixelPoint exImage.height 0 0 3 65536 exBigScene.supersamplingFactor
          - exBigScene.eye)⟩ : Ray)
      ∈ subpixelRays exPrims exBigScene exImage.height 0 0 ∧
    ((0 : Nat) : ℚ)
      < (subpixelPoint exImage.height 0 0 3 65536 exBigScene.supersamplingFactor).x ∧
    (subpixelPoint exImage.height 0 0 3 65536 exBigScene.supersamplingFactor).x
      < ((0 : Nat) : ℚ) + 1 ∧
    (exImage.height : ℚ) - 1 - ((0 : Nat) : ℚ)
      < (subpixelPoint exImage.height 0 0 3 65536 exBigScene.supersamplingFactor).y ∧
    (subpixelPoint exImage.height 0 0 3 65536 exBigScene.supersamplingFactor).y
      < (exImage.height : ℚ) - ((0 : Nat) : ℚ) := by
  have h0 : exImage.height < 4294967296 := by
    show (1 : Nat) < 4294967296
    norm_num
  have h1 : 0 < exImage.width := Nat.one_pos
  have h2 : 0 < exImage.height := Nat.one_pos
  have h3 : (3 : Nat) < exBigScene.supersamplingFactor := by
    show (3 : Nat) < 65537
    norm_num
  have h4 : (65536 : Nat) < exBigScene.supersamplingFactor := by
    show (65536 : Nat) < 65537
    norm_num
  have h := subpixel_point_in_pixel exPrims exClamp exBigScene exImage 0 0 0 3 65536
    h0 h1 h2 h3 h4
  exact ⟨h0, h1, h2, h3, h4, h.2.2.1, h.2.2.2.2.2.2.2.1⟩

/-- C16: in a scene without lights, for a ray that hits an object, `trace` at
depth `0` returns `ka` times the surface colour: the texture at `(U, 1 − V)`
of the UV mapping of the hit point when the material has a texture, the flat
colour otherwise. -/
theorem trace_zero_no_lights (P : Prims) (sc : Scene) (ray : Ray) (g : Nat) (obj : Object)
    (min_hit : Hit) (hl : sc.lights = []) (hres : sc.castRay ray = (some obj, min_hit)) :
    trace P sc 0 ray g
      = (obj.material.ka •
          (if obj.material.hasTexture = true then
            obj.material.texture.colorAt (obj.toUV (ray.pointAt min_hit.t)).x
              (1 - (obj.toUV (ray.pointAt min_hit.t)).y)
           else obj.material.color), g) := by
  rw [trace_zero_hit P sc ray g obj min_hit hres, localColor_no_lights P sc _ g hl]
  rfl

/-- Witness for C16: the example scene without lights. -/
theorem trace_zero_no_lights_witness :
    exNegScene.lights = [] ∧
    exNegScene.castRay exRay = (some exNegSlab, ⟨((1 / 2 : ℚ) : WithTop ℚ), ⟨0, 0, 1⟩⟩) ∧
    trace exPrims exNegScene 0 exRay 0
      = (exNegSlab.material.ka •
          (if exNegSlab.material.hasTexture = true then
            exNegSlab.material.texture.colorAt
              (exNegSlab.toUV (exRay.pointAt ((1 / 2 : ℚ) : WithTop ℚ))).x
              (1 - (exNegSlab.toUV (exRay.pointAt ((1 / 2 : ℚ) : WithTop ℚ))).y)
           else exNegSlab.material.color), 0) :=
  ⟨rfl, ex_castRay_neg,
    trace_zero_no_lights exPrims exNegScene exRay 0 exNegSlab _ rfl ex_castRay_neg⟩

/-- When the product of the cell counts used fits in an `int`, the divisor
`num_cells` is that product, at least `1` for `cells_x ≥ 1` and `cells_y ≥ 1`;
in `HARD` mode it is `1` whatever the cell counts are. -/
theorem numCells_in_range (sc : Scene) (light : Light) :
    (1 ≤ light.cells_x → 1 ≤ light.cells_y →
      cellsOf sc light.cells_x * cellsOf sc light.cells_y < 2147483648 →
      numCells sc light = cellsOf sc light.cells_x * cellsOf sc light.cells_y ∧
        1 ≤ numCells sc light ∧ ((numCells sc light : Int) : ℚ) ≠ 0) ∧
    (sc.shadowType = ShadowType.HARD → numCells sc light = 1) := by
  refine ⟨?_, ?_⟩
  · intro hx hy hfit
    have h1 : 1 ≤ cellsOf sc light.cells_x := by
      unfold cellsOf; split <;> omega
    have h2 : 1 ≤ cellsOf sc light.cells_y := by
      unfold cellsOf; split <;> omega
    have h3 : 1 ≤ cellsOf sc light.cells_x * cellsOf sc light.cells_y := by nlinarith
    have h4 : numCells sc light = cellsOf sc light.cells_x * cellsOf sc light.cells_y := by
      unfold numCells
      exact wrapInt32_of_range _ (by omega) hfit
    refine ⟨h4, by omega, ?_⟩
    have : (0 : Int) < numCells sc light := by omega
    exact_mod_cast this.ne'
  · intro hh
    simp [numCells, cellsOf, hh, wrapInt32]

/-- C17 at a failing input: for a light with a grid of `65536` by `65536` cells
(both counts at least `1`) under banded soft shadows, the divisor `num_cells`,
the `int` product of the two cell counts, is zero, and one iteration of the
light loop divides the sum of the sample contributions by it.  In `HARD` mode
the divisor of the same light is `1`. -/
theorem cell_product_overflow_zero :
    (1 : Int) ≤ (exGridLight 65536).cells_x ∧ (1 : Int) ≤ (exGridLight 65536).cells_y ∧
    (exGridScene 65536).shadowType = ShadowType.SOFT_BANDING ∧
    cellsOf (exGridScene 65536) (exGridLight 65536).cells_x = 65536 ∧
    cellsOf (exGridScene 65536) (exGridLight 65536).cells_y = 65536 ∧
    wrapInt32 (65536 * 65536) = 0 ∧
    numCells (exGridScene 65536) (exGridLight 65536) = 0 ∧
    (∀ (s : Surface) (acc : Color × Nat),
      (lightStep exPrims (exGridScene 65536) s acc (exGridLight 65536)).1
        = acc.1 + (cellLoop exPrims (exGridScene 65536) s (exGridLight 65536) 65536 65536
            (Triple.zero, acc.2)).1 / ((0 : Int) : ℚ)) ∧
    numCells { exGridScene 65536 with shadowType := ShadowType.HARD } (exGridLight 65536) = 1 := by
  have hw : wrapInt32 (65536 * 65536) = 0 := rfl
  refine ⟨by decide, by decide, rfl, (ex_grid_cells 65536).1, (ex_grid_cells 65536).2, hw,
    ?_, ?_, ?_⟩
  · unfold numCells
    rw [(ex_grid_cells 65536).1, (ex_grid_cells 65536).2, hw]
  · intro s acc
    unfold lightStep
    simp only [(ex_grid_cells 65536).1, (ex_grid_cells 65536).2, hw]
  · rfl

/-- C18: setting the flag `renderShadows` to any value changes neither the
result of `trace` nor that of `render`, nor any shadow test: an opaque nearest
occluder puts the sample in shadow whatever the flag is. -/
theorem renderShadows_has_no_effect (P : Prims) (clamp : Color → Color) (sc : Scene) (b : Bool) :
    (sc.setRenderShadows b).renderShadows = b ∧
    (∀ (d : Nat) (ray : Ray) (g : Nat),
      trace P (sc.setRenderShadows b) d ray g = trace P sc d ray g) ∧
    (∀ (img : Image) (g : Nat),
      render P clamp (sc.setRenderShadows b) img g = render P clamp sc img g) ∧
    (∀ (s : Surface) (pos L : Vector),
      inShadow P (sc.setRenderShadows b) s pos L = inShadow P sc s pos L) ∧
    (∀ (s : Surface) (pos L : Vector) (o : Object) (h : Hit),
      (sc.setRenderShadows b).castRay (shadowRay P s L) = (some o, h) →
      (((shadowRay P s L).pointAt h.t) - s.hit).length_2 < (pos - s.hit).length_2 →
      o.material.isTransparent = false →
      inShadow P (sc.setRenderShadows b) s pos L = true) := by
  refine ⟨rfl, fun d => trace_setRenderShadows P sc b d,
    fun img g => render_setRenderShadows P clamp sc b img g, fun _ _ _ => rfl, ?_⟩
  intro s pos L o h hres hlt hop
  rw [inShadow_of_castRay P _ s pos L o h hres, if_neg (not_le.2 hlt), hop]
  rfl

/-- C19: for a hit on an opaque material with specular coefficient `0`,
`trace` returns the same result at every depth, the local illumination, and
the invocation makes no recursive call. -/
theorem trace_opaque_diffuse_depth_free (P : Prims) (sc : Scene) (ray : Ray) (g : Nat)
    (obj : Object) (min_hit : Hit) (hres : sc.castRay ray = (some obj, min_hit))
    (hop : obj.material.isTransparent = false) (hks : obj.material.ks = 0) :
    (∀ d, trace P sc d ray g = trace P sc 0 ray g) ∧
    (∀ d, (trace P sc d ray g).1 = localIllumination P sc (surfaceOf ray obj min_hit) g) ∧
    (∀ (d : Nat) (ans : Nat → Ray → Nat → Color × Nat), directCalls P sc d ans ray g = []) := by
  have hk : ¬ 0 < obj.material.ks := by rw [hks]; exact lt_irrefl 0
  refine ⟨?_, ?_, ?_⟩
  · intro d
    rw [trace_opaque_dull P sc ray d g obj min_hit hres hop hk,
      trace_opaque_dull P sc ray 0 g obj min_hit hres hop hk]
  · intro d
    rw [trace_opaque_dull P sc ray d g obj min_hit hres hop hk, localColor_eq]
  · intro d ans
    rw [directCalls_eq P sc d ans ray g obj min_hit hres, hop]
    have h2 : ¬ (d > 0 ∧ obj.material.ks > 0) := fun h => hk h.2
    rw [if_neg (by simp), if_neg h2]

/-- Witness for C19: the opaque two-faced object of the examples. -/
theorem trace_opaque_diffuse_depth_free_witness :
    (exSlabScene false).castRay exRay
        = (some (exSlab false), ⟨((1 / 2 : ℚ) : WithTop ℚ), ⟨0, 0, 1⟩⟩) ∧
    (exSlab false).material.isTransparent = false ∧
    (exSlab false).material.ks = 0 ∧
    (∀ d, trace exPrims (exSlabScene false) d exRay 0
      = trace exPrims (exSlabScene false) 0 exRay 0) :=
  ⟨ex_castRay_slab false, rfl, rfl,
    (trace_opaque_diffuse_depth_free exPrims (exSlabScene false) exRay 0 (exSlab false) _
      (ex_castRay_slab false) rfl rfl).1⟩

/-- C20: for a positive refraction index and `cos` in `[0, 1]`, Schlick's
reflectance satisfies `0 ≤ kr0 < 1` and `kr0 ≤ kr ≤ 1`, so `kr` and
`kt = 1 − kr` lie in `[0, 1]`; `kr0` is the same for a ray that enters and for
one that exits. -/
theorem schlick_weights_in_unit_interval (material : Material) (N V : Vector) (cos : ℚ)
    (hnt : 0 < material.nt) (h0 : 0 ≤ cos) (h1 : cos ≤ 1) :
    0 ≤ schlickKr0 (refractionIndices material N V).1 (refractionIndices material N V).2 ∧
    schlickKr0 (refractionIndices material N V).1 (refractionIndices material N V).2 < 1 ∧
    schlickKr0 (refractionIndices material N V).1 (refractionIndices material N V).2
      ≤ schlickKr (refractionIndices material N V).1 (refractionIndices material N V).2 cos ∧
    schlickKr (refractionIndices material N V).1 (refractionIndices material N V).2 cos ≤ 1 ∧
    0 ≤ schlickKr (refractionIndices material N V).1 (refractionIndices material N V).2 cos ∧
    0 ≤ 1 - schlickKr (refractionIndices material N V).1 (refractionIndices material N V).2 cos ∧
    1 - schlickKr (refractionIndices material N V).1 (refractionIndices material N V).2 cos ≤ 1 ∧
    schlickKr0 1 material.nt = schlickKr0 material.nt 1 ∧
    schlickKr0 (refractionIndices material N V).1 (refractionIndices material N V).2
      = ((1 - material.nt) / (1 + material.nt)) ^ 2 := by
  obtain ⟨b0, b1, bs⟩ := schlickKr0_bounds material.nt hnt
  have hk : schlickKr0 (refractionIndices material N V).1 (refractionIndices material N V).2
      = schlickKr0 1 material.nt := by
    unfold refractionIndices
    split
    · rfl
    · exact bs
  have hc0 : 0 ≤ (1 - cos) ^ 5 := pow_nonneg (by linarith) 5
  have hc1 : (1 - cos) ^ 5 ≤ 1 := pow_le_one₀ (by linarith) (by linarith)
  have hkr : schlickKr (refractionIndices material N V).1 (refractionIndices material N V).2 cos
      = schlickKr0 1 material.nt + (1 - schlickKr0 1 material.nt) * (1 - cos) ^ 5 := by
    unfold schlickKr
    rw [hk]
  rw [hkr, hk]
  have hm : 0 ≤ (1 - schlickKr0 1 material.nt) * (1 - cos) ^ 5 :=
    mul_nonneg (by linarith) hc0
  have hm1 : (1 - schlickKr0 1 material.nt) * (1 - cos) ^ 5 ≤ 1 - schlickKr0 1 material.nt := by
    have := mul_le_mul_of_nonneg_left hc1 (show 0 ≤ 1 - schlickKr0 1 material.nt by linarith)
    linarith
  refine ⟨b0, b1, by linarith, by linarith, by linarith, by linarith, by linarith, bs.symm, rfl⟩

/-- Witness for C20: index `3 / 2` and `cos = 1 / 2`. -/
theorem schlick_weights_in_unit_interval_witness :
    (0 : ℚ) < (exMaterial true).nt ∧ (0 : ℚ) ≤ 1 / 2 ∧ (1 / 2 : ℚ) ≤ 1 ∧
    schlickKr (refractionIndices (exMaterial true) ⟨0, 0, 1⟩ ⟨0, 0, 1⟩).1
        (refractionIndices (exMaterial true) ⟨0, 0, 1⟩ ⟨0, 0, 1⟩).2 (1 / 2) ≤ 1 := by
  have hnt : (0 : ℚ) < (exMaterial true).nt := by
    show (0 : ℚ) < 3 / 2
    norm_num
  exact ⟨hnt, by norm_num, by norm_num,
    (schlick_weights_in_unit_interval (exMaterial true) ⟨0, 0, 1⟩ ⟨0, 0, 1⟩ (1 / 2) hnt
      (by norm_num) (by norm_num)).2.2.2.1⟩

end Raytracer
